import Mathlib

/-!
# Data-model codec and access gate

Shallow embeddings of four parts of the repository and the properties of each:

* the list-attribute marshaller of the OTA requestor application
  (`zap-generated/attribute-size.cpp`): `copyListMember`, `emberAfCopyList` and
  `emberAfAttributeValueListSize`;
* the generated privilege table of the light-switch application
  (`zap-generated/access.h`) with its lookup and the access gate;
* the read-request message schema (`ReadRequestMessage.h`);
* the OTA requestor delegate (`ExampleRequestorDelegate.cpp`).

Memory reached through a `uint8_t *` is a function from byte offsets
(relative to the pointer) to bytes.  Machine integers are naturals, reduced
modulo `2 ^ w` at each place where the C code narrows to a `w`-bit type.
The host byte order is a parameter (`bigEndian`) wherever the C code moves an
integer object as raw bytes.
-/

namespace AttributeSize

/-- One octet (`uint8_t`). -/
abbrev Byte := Fin 256

/-- The bytes reachable from a `uint8_t *`, indexed by offset from the pointer. -/
abbrev Buf := Nat → Byte

/-- A `ByteSpan` value: the bytes the span designates. -/
abbrev ByteSpan := List Byte

/-- The constant `kSizeLengthInBytes`: the first two bytes hold the entry count. -/
def kSizeLengthInBytes : Nat := 2

/-- The C library `memmove(dest + destOff, src + srcOff, length)`. -/
def memmove (dest : Buf) (destOff : Nat) (src : Buf) (srcOff : Nat) (length : Nat) : Buf :=
  fun i => if destOff ≤ i ∧ i < destOff + length then src (srcOff + (i - destOff)) else dest i

/-- Byte number `j` (least significant first) of the integer `v`. -/
def leByte (v j : Nat) : Byte := ⟨(v / 256 ^ j) % 256, Nat.mod_lt _ (by decide)⟩

/-- The integer whose `w` bytes, least significant first, are `b 0 .. b (w-1)`. -/
def leValue : Nat → Buf → Nat
  | 0, _ => 0
  | w + 1, b => (b 0).val + 256 * leValue w (fun k => b (k + 1))

/-- Position, counted from the least significant byte, of the byte stored at
memory offset `k` of a `w`-byte integer object on the host. -/
def hostPos (bigEndian : Bool) (w k : Nat) : Nat := if bigEndian then w - 1 - k else k

/-- The object representation of the `w`-byte unsigned integer `v` on the host:
what a `uint8_t *` to the object sees. -/
def toNative (bigEndian : Bool) (w v : Nat) : Buf :=
  fun k => if k < w then leByte v (hostPos bigEndian w k) else 0

/-- The value of the `w`-byte unsigned integer object whose bytes are `b`
(`*reinterpret_cast<uintN_t *>(p)`). -/
def ofNative (bigEndian : Bool) (w : Nat) (b : Buf) : Nat :=
  leValue w (fun k => b (hostPos bigEndian w k))

/-- Modelled from the spec: `CanCastTo<uint16_t>` of `lib/support/SafeInt.h`
(not among the sources): whether an integer lies in the representable 16-bit
count domain. -/
def CanCastTo_uint16 (v : Int) : Bool := decide (0 ≤ v ∧ v ≤ 65535)

/-- Modelled from the spec: `emberAfGetInt16u` of `app/util` (not among the
sources): the two bytes at `currentIndex` read as a little-endian 16-bit
integer. -/
def emberAfGetInt16u (message : Buf) (currentIndex : Nat) (_msgLen : Nat) : Nat :=
  (message currentIndex).val + 256 * (message (currentIndex + 1)).val

/-- Modelled from the spec: `emberAfCopyInt16u` of `app/util` (not among the
sources): stores the 16-bit integer `x` at `index` as two little-endian bytes. -/
def emberAfCopyInt16u (data : Buf) (index : Nat) (x : Nat) : Buf :=
  fun i => if i = index then leByte x 0 else if i = index + 1 then leByte x 1 else data i

/-- Modelled from the spec: the stored form of a self-length-prefixed byte
string at `buffer + off` (the layout `WriteByteSpan` produces; the helper is not
among the sources): the 16-bit little-endian length, then the payload. -/
def putSpan (buffer : Buf) (off : Nat) (span : ByteSpan) : Buf :=
  fun i =>
    if off + 2 ≤ i ∧ i < off + 2 + span.length then span.getD (i - (off + 2)) 0
    else emberAfCopyInt16u buffer off span.length i

/-- Modelled from the spec: the `dataLen` payload bytes of the self-length-prefixed
byte string stored at `buffer + off` (what the span set by `ReadByteSpan`
designates; the helper is not among the sources). -/
def getSpan (buffer : Buf) (off : Nat) (dataLen : Nat) : ByteSpan :=
  (List.range dataLen).map (fun k => buffer (off + 2 + k))

/-- Modelled from the spec: `WriteByteSpan` of `app/util/attribute-list-byte-span.h`
(not among the sources): a bounded write of a self-length-prefixed byte string
into the `bufferLen`-byte slot at `buffer + off`.  A string that does not fit the
slot together with its 2-byte length prefix is an error (`none`) and nothing is
written. -/
def WriteByteSpan (buffer : Buf) (off : Nat) (bufferLen : Nat) (span : ByteSpan) : Option Buf :=
  if span.length + 2 ≤ bufferLen then some (putSpan buffer off span) else none

/-- Modelled from the spec: `ReadByteSpan` of `app/util/attribute-list-byte-span.h`
(not among the sources): a bounded read of a self-length-prefixed byte string
from the `bufferLen`-byte slot at `buffer + off`; a length prefix that reaches
past the slot is an error (`none`). -/
def ReadByteSpan (buffer : Buf) (off : Nat) (bufferLen : Nat) : Option ByteSpan :=
  let dataLen := emberAfGetInt16u buffer off kSizeLengthInBytes
  if dataLen + 2 ≤ bufferLen then some (getSpan buffer off dataLen) else none

/-- Modelled from the spec: the fields of `EmberAfAttributeMetadata` the
marshaller reads (the type is declared in `app/util`, not among the sources): the
attribute id and the declared total buffer size, a `uint16_t`. -/
structure EmberAfAttributeMetadata where
  attributeId : Nat
  size : Nat
deriving DecidableEq, Repr

/-- Modelled from the spec: the native struct `_FabricDescriptor` (declared in
`af-structs.h`, not among the sources): one entry of the fabrics list.  The
integer fields have the widths of the wire layout, 1, 2, 8 and 8 bytes (`INT8U`,
`INT16U`, `FABRIC_ID`, `NODE_ID`), which is what `sizeof` gives in
`emberAfCopyList`; the two `ByteSpan` fields are byte strings. -/
structure FabricDescriptor where
  FabricIndex : Nat
  RootPublicKey : ByteSpan
  VendorId : Nat
  FabricId : Nat
  NodeId : Nat
  Label : ByteSpan
deriving DecidableEq, Repr

/-- What a pointer argument of `emberAfCopyList` designates: raw bytes (a wire
buffer, or a native `uint16_t` seen through its object representation), or a
native `_FabricDescriptor`. -/
inductive Mem where
  | raw (b : Buf)
  | fabric (e : FabricDescriptor)

/-- The function `copyListMember`: moves `length` bytes between `dest + offset`
and `src` (write) or between `dest` and `src + offset` (read), and advances the
16-bit running offset.  Returns the new `dest` and the new offset. -/
def copyListMember (dest src : Buf) (write : Bool) (offset length : Nat) : Buf × Nat :=
  ((if write then memmove dest offset src 0 length else memmove dest 0 src offset length),
   (offset + length) % 65536)

/-- The function `emberAfAttributeValueListSize`. -/
def emberAfAttributeValueListSize (clusterId attributeId : Nat) (buffer : Buf) : Nat :=
  let entryCount := emberAfGetInt16u buffer 0 kSizeLengthInBytes
  if entryCount = 0xFFFF then 0
  else
    let entryLength : Nat :=
      if clusterId = 0x003E then (if attributeId = 0x0001 then 120 else 0) else 0
    let totalSize : Nat := (kSizeLengthInBytes + entryCount * entryLength) % 2 ^ 32
    if !CanCastTo_uint16 (totalSize : Int) then 0
    else totalSize % 65536

/-- The fabrics-list case of `emberAfCopyList` in the write direction
(`src` is the native `_FabricDescriptor`, `dest` the buffer), from the first
`copyListMember` call on.  Returns whether both byte strings were written, the
destination buffer as the call leaves it, and the running `entryOffset`. -/
def writeFabricEntry (bigEndian : Bool) (dest : Buf) (entry : FabricDescriptor)
    (entryOffset : Nat) : Bool × Buf × Nat :=
  let m1 := copyListMember dest (toNative bigEndian 1 entry.FabricIndex) true entryOffset 1
  match WriteByteSpan m1.1 m1.2 67 entry.RootPublicKey with
  | none => (false, m1.1, m1.2)
  | some d2 =>
    let o2 := (m1.2 + 67) % 65536
    let m3 := copyListMember d2 (toNative bigEndian 2 entry.VendorId) true o2 2
    let m4 := copyListMember m3.1 (toNative bigEndian 8 entry.FabricId) true m3.2 8
    let m5 := copyListMember m4.1 (toNative bigEndian 8 entry.NodeId) true m4.2 8
    match WriteByteSpan m5.1 m5.2 34 entry.Label with
    | none => (false, m5.1, m5.2)
    | some d6 => (true, d6, (m5.2 + 34) % 65536)

/-- The fabrics-list case of `emberAfCopyList` in the read direction (`src` is
the buffer, `dest` the native `_FabricDescriptor`), from the first
`copyListMember` call on.  Returns whether both byte strings were read, the
native entry as the call leaves it, and the running `entryOffset`. -/
def readFabricEntry (bigEndian : Bool) (entry : FabricDescriptor) (src : Buf)
    (entryOffset : Nat) : Bool × FabricDescriptor × Nat :=
  let m1 := copyListMember (toNative bigEndian 1 entry.FabricIndex) src false entryOffset 1
  let e1 := { entry with FabricIndex := ofNative bigEndian 1 m1.1 }
  match ReadByteSpan src m1.2 67 with
  | none => (false, e1, m1.2)
  | some key =>
    let e2 := { e1 with RootPublicKey := key }
    let o2 := (m1.2 + 67) % 65536
    let m3 := copyListMember (toNative bigEndian 2 e2.VendorId) src false o2 2
    let e3 := { e2 with VendorId := ofNative bigEndian 2 m3.1 }
    let m4 := copyListMember (toNative bigEndian 8 e3.FabricId) src false m3.2 8
    let e4 := { e3 with FabricId := ofNative bigEndian 8 m4.1 }
    let m5 := copyListMember (toNative bigEndian 8 e4.NodeId) src false m4.2 8
    let e5 := { e4 with NodeId := ofNative bigEndian 8 m5.1 }
    match ReadByteSpan src m5.2 34 with
    | none => (false, e5, m5.2)
    | some label => (true, { e5 with Label := label }, (m5.2 + 34) % 65536)

/-- The function `emberAfCopyList`.  The result is the returned `uint16_t` and
the memory `dest` points to after the call; `none` stands for a call whose
pointers do not designate what the selected mode reinterprets them as. -/
def emberAfCopyList (bigEndian : Bool) (clusterId : Nat) (am : EmberAfAttributeMetadata)
    (write : Bool) (dest src : Mem) (index : Int) : Option (Nat × Mem) :=
  if index = -1 then
    match dest, src with
    | .raw d, .raw s => some (am.size, .raw (memmove d 0 s 0 am.size))
    | _, _ => none
  else if index = 0 then
    match dest, src with
    | .raw d, .raw s =>
      if write then
        some (kSizeLengthInBytes, .raw (emberAfCopyInt16u d 0 (ofNative bigEndian 2 s)))
      else
        some (kSizeLengthInBytes,
          .raw (memmove d 0 (toNative bigEndian 2 (emberAfGetInt16u s 0 kSizeLengthInBytes)) 0 2))
    | _, _ => none
  else if !CanCastTo_uint16 index then some (0, dest)
  else if clusterId = 0x003E then
    if am.attributeId = 0x0001 then
      let entryLength : Int := 120
      if (index - 1) * entryLength > (am.size : Int) - entryLength then some (0, dest)
      else
        let entryOffset : Nat :=
          (((kSizeLengthInBytes : Int) + (index - 1) * entryLength) % 65536).toNat
        match write, dest, src with
        | true, .raw d, .fabric e =>
          let r := writeFabricEntry bigEndian d e entryOffset
          some (if r.1 then 120 else 0, .raw r.2.1)
        | false, .fabric e, .raw s =>
          let r := readFabricEntry bigEndian e s entryOffset
          some (if r.1 then 120 else 0, .fabric r.2.1)
        | _, _, _ => none
    else some (0, dest)
  else some (0, dest)

/-- The value ranges of the integer fields of `_FabricDescriptor`
(`uint8_t`, `uint16_t`, `uint64_t`, `uint64_t`). -/
def FabricDescriptor.InRange (e : FabricDescriptor) : Prop :=
  e.FabricIndex < 2 ^ 8 ∧ e.VendorId < 2 ^ 16 ∧ e.FabricId < 2 ^ 64 ∧ e.NodeId < 2 ^ 64

instance (e : FabricDescriptor) : Decidable e.InRange := by
  unfold FabricDescriptor.InRange; infer_instance

/-- Both byte strings of the entry fit their slots (67 and 34 bytes), the
2-byte length prefix included. -/
def FabricDescriptor.Fits (e : FabricDescriptor) : Prop :=
  e.RootPublicKey.length + 2 ≤ 67 ∧ e.Label.length + 2 ≤ 34

instance (e : FabricDescriptor) : Decidable e.Fits := by
  unfold FabricDescriptor.Fits; infer_instance

/-- The return value of a call of `emberAfCopyList`. -/
def retVal (r : Option (Nat × Mem)) : Option Nat := r.map Prod.fst

/-- The bytes `dest` points to after a call of `emberAfCopyList` that leaves raw
bytes there. -/
def rawOut (r : Option (Nat × Mem)) : Option Buf :=
  match r with
  | some (_, .raw b) => some b
  | _ => none

/-- A caller that stores the entries `es` in a list buffer with one write-direction
call of `emberAfCopyList` each, at the indices `first`, `first + 1`, ...;
`none` when a call does not return the stride 120. -/
def writeEntries (bigEndian : Bool) (am : EmberAfAttributeMetadata) :
    List FabricDescriptor → Nat → Buf → Option Buf
  | [], _, buf => some buf
  | e :: es, first, buf =>
    let r := emberAfCopyList bigEndian 0x003E am true (.raw buf) (.fabric e) (first : Int)
    if retVal r = some 120 then (rawOut r).bind (fun b => writeEntries bigEndian am es (first + 1) b)
    else none

/-- A caller that encodes the fabrics list `es` into the buffer `buf`: the native
count is written with index 0, then entry `k` with index `k` for `k = 1 .. N`. -/
def encodeList (bigEndian : Bool) (am : EmberAfAttributeMetadata) (es : List FabricDescriptor)
    (buf : Buf) : Option Buf :=
  (rawOut (emberAfCopyList bigEndian 0x003E am true (.raw buf)
      (.raw (toNative bigEndian 2 es.length)) 0)).bind
    (fun b => writeEntries bigEndian am es 1 b)

end AttributeSize

namespace AccessPrivilege

/-- Modelled from the spec: the privilege levels named by `privilege-storage.h`
(not among the sources), a total order view < operate < manage < administer. -/
inductive Privilege where
  | view
  | operate
  | manage
  | administer
deriving DecidableEq, Repr

/-- Position of a privilege in the order view < operate < manage < administer. -/
def Privilege.rank : Privilege → Nat
  | .view => 0
  | .operate => 1
  | .manage => 2
  | .administer => 3

/-- The order on privileges: `p ≤ q` when `q` is at least as privileged as `p`. -/
instance : LE Privilege := ⟨fun p q => p.rank ≤ q.rank⟩

instance (p q : Privilege) : Decidable (p ≤ q) := by
  show Decidable (p.rank ≤ q.rank); infer_instance

/-- Modelled from the spec: the constant `kMatterAccessPrivilegeAdminister` of
`privilege-storage.h` (not among the sources), the privilege "administer". -/
def kMatterAccessPrivilegeAdminister : Privilege := .administer

/-- The array `GENERATED_ACCESS_READ_ATTRIBUTE__CLUSTER` of `access.h`. -/
def GENERATED_ACCESS_READ_ATTRIBUTE__CLUSTER : List Nat := [31, 31, 62]

/-- The array `GENERATED_ACCESS_READ_ATTRIBUTE__ATTRIBUTE` of `access.h`. -/
def GENERATED_ACCESS_READ_ATTRIBUTE__ATTRIBUTE : List Nat := [0, 1, 0]

/-- The array `GENERATED_ACCESS_READ_ATTRIBUTE__PRIVILEGE` of `access.h`. -/
def GENERATED_ACCESS_READ_ATTRIBUTE__PRIVILEGE : List Privilege :=
  [kMatterAccessPrivilegeAdminister, kMatterAccessPrivilegeAdminister,
   kMatterAccessPrivilegeAdminister]

/-- The array `GENERATED_ACCESS_WRITE_ATTRIBUTE__CLUSTER` of `access.h`. -/
def GENERATED_ACCESS_WRITE_ATTRIBUTE__CLUSTER : List Nat := [31, 31]

/-- The array `GENERATED_ACCESS_WRITE_ATTRIBUTE__ATTRIBUTE` of `access.h`. -/
def GENERATED_ACCESS_WRITE_ATTRIBUTE__ATTRIBUTE : List Nat := [0, 1]

/-- The array `GENERATED_ACCESS_WRITE_ATTRIBUTE__PRIVILEGE` of `access.h`. -/
def GENERATED_ACCESS_WRITE_ATTRIBUTE__PRIVILEGE : List Privilege :=
  [kMatterAccessPrivilegeAdminister, kMatterAccessPrivilegeAdminister]

/-- The array `GENERATED_ACCESS_INVOKE_COMMAND__CLUSTER` of `access.h`. -/
def GENERATED_ACCESS_INVOKE_COMMAND__CLUSTER : List Nat := [62, 62, 62, 62, 62, 62, 62, 62, 62]

/-- The array `GENERATED_ACCESS_INVOKE_COMMAND__COMMAND` of `access.h`. -/
def GENERATED_ACCESS_INVOKE_COMMAND__COMMAND : List Nat := [0, 2, 4, 6, 7, 9, 10, 11, 12]

/-- The array `GENERATED_ACCESS_INVOKE_COMMAND__PRIVILEGE` of `access.h`. -/
def GENERATED_ACCESS_INVOKE_COMMAND__PRIVILEGE : List Privilege :=
  [kMatterAccessPrivilegeAdminister, kMatterAccessPrivilegeAdminister,
   kMatterAccessPrivilegeAdminister, kMatterAccessPrivilegeAdminister,
   kMatterAccessPrivilegeAdminister, kMatterAccessPrivilegeAdminister,
   kMatterAccessPrivilegeAdminister, kMatterAccessPrivilegeAdminister,
   kMatterAccessPrivilegeAdminister]

/-- The array `GENERATED_ACCESS_READ_EVENT__CLUSTER` of `access.h`. -/
def GENERATED_ACCESS_READ_EVENT__CLUSTER : List Nat := [31, 31]

/-- The array `GENERATED_ACCESS_READ_EVENT__EVENT` of `access.h`. -/
def GENERATED_ACCESS_READ_EVENT__EVENT : List Nat := [0, 1]

/-- The array `GENERATED_ACCESS_READ_EVENT__PRIVILEGE` of `access.h`. -/
def GENERATED_ACCESS_READ_EVENT__PRIVILEGE : List Privilege :=
  [kMatterAccessPrivilegeAdminister, kMatterAccessPrivilegeAdminister]

/-- The four access kinds, one per group of parallel arrays of `access.h`. -/
inductive AccessKind where
  | readAttribute
  | writeAttribute
  | invokeCommand
  | readEvent
deriving DecidableEq, Repr

/-- The cluster array of an access kind. -/
def clusterArray : AccessKind → List Nat
  | .readAttribute => GENERATED_ACCESS_READ_ATTRIBUTE__CLUSTER
  | .writeAttribute => GENERATED_ACCESS_WRITE_ATTRIBUTE__CLUSTER
  | .invokeCommand => GENERATED_ACCESS_INVOKE_COMMAND__CLUSTER
  | .readEvent => GENERATED_ACCESS_READ_EVENT__CLUSTER

/-- The element (attribute, command or event) array of an access kind. -/
def elementArray : AccessKind → List Nat
  | .readAttribute => GENERATED_ACCESS_READ_ATTRIBUTE__ATTRIBUTE
  | .writeAttribute => GENERATED_ACCESS_WRITE_ATTRIBUTE__ATTRIBUTE
  | .invokeCommand => GENERATED_ACCESS_INVOKE_COMMAND__COMMAND
  | .readEvent => GENERATED_ACCESS_READ_EVENT__EVENT

/-- The privilege array of an access kind. -/
def privilegeArray : AccessKind → List Privilege
  | .readAttribute => GENERATED_ACCESS_READ_ATTRIBUTE__PRIVILEGE
  | .writeAttribute => GENERATED_ACCESS_WRITE_ATTRIBUTE__PRIVILEGE
  | .invokeCommand => GENERATED_ACCESS_INVOKE_COMMAND__PRIVILEGE
  | .readEvent => GENERATED_ACCESS_READ_EVENT__PRIVILEGE

/-- Modelled from the spec: the scan of three parallel arrays behind `Lookup`
(the lookup code of `privilege-storage` is not among the sources): the privilege
at the first position whose cluster and element both match, or no explicit rule
(`none`). -/
def lookupRows : List Nat → List Nat → List Privilege → Nat → Nat → Option Privilege
  | c :: cs, e :: es, p :: ps, clusterId, elementId =>
    if c = clusterId ∧ e = elementId then some p else lookupRows cs es ps clusterId elementId
  | _, _, _, _, _ => none

/-- Modelled from the spec: `Lookup(kind, clusterId, elementId)` over the generated
table (the lookup code of `privilege-storage` is not among the sources): the
required privilege if a row of that kind matches, or "no explicit rule" (`none`)
if none does. -/
def Lookup (kind : AccessKind) (clusterId elementId : Nat) : Option Privilege :=
  lookupRows (clusterArray kind) (elementArray kind) (privilegeArray kind) clusterId elementId

/-- Modelled from the spec: the access gate (its code is not among the sources).
`caller` is the privilege the external collaborators resolved for the session,
`none` when the fabric could not be resolved; `defaultPolicy` is the external
default-privilege policy used when the table has no explicit rule.  The
operation is admitted only if the caller's privilege is at least the required
one. -/
def AccessGate (defaultPolicy : AccessKind → Privilege) (kind : AccessKind)
    (clusterId elementId : Nat) (caller : Option Privilege) : Bool :=
  match caller with
  | none => false
  | some p =>
    match Lookup kind clusterId elementId with
    | some required => decide (required ≤ p)
    | none => decide (defaultPolicy kind ≤ p)

end AccessPrivilege

namespace ReadRequestMessage

/-- The enumerator `kCsTag_AttributePathList`. -/
def kCsTag_AttributePathList : Nat := 0

/-- The enumerator `kCsTag_AttributeDataVersionList`. -/
def kCsTag_AttributeDataVersionList : Nat := 1

/-- The enumerator `kCsTag_EventPaths`. -/
def kCsTag_EventPaths : Nat := 2

/-- The enumerator `kCsTag_EventNumber`. -/
def kCsTag_EventNumber : Nat := 3

/-- The tags of the read-request schema, in declaration order. -/
def schemaTags : List Nat :=
  [kCsTag_AttributePathList, kCsTag_AttributeDataVersionList, kCsTag_EventPaths,
   kCsTag_EventNumber]

/-- Modelled from the spec: the outcomes of the structured layer
(`lib/core`, not among the sources): success, "field absent"
(`CHIP_END_OF_TLV`), and a hard failure for a malformed encoding (bad type,
duplicate tag, missing mandatory tag, write out of order). -/
inductive CHIP_ERROR where
  | CHIP_NO_ERROR
  | CHIP_END_OF_TLV
  | CHIP_ERROR_MALFORMED
deriving DecidableEq, Repr

/-- Modelled from the spec: one element of a list sub-structure (an attribute
path, a data version, an event path), kept as its encoded bytes; the element
schemas are not part of the read-request schema. -/
abbrev Item := List Nat

/-- Modelled from the spec: the value of a tagged field as the external
`TaggedFieldStream` hands it to the structured layer: an unsigned integer or a
list of elements. -/
inductive TLVValue where
  | unsignedInteger (v : Nat)
  | array (items : List Item)
deriving DecidableEq, Repr

/-- Modelled from the spec: the content of the `TaggedFieldStream` at the top level
of one structure: the tagged fields in the order they were written. -/
abbrev Fields := List (Nat × TLVValue)

/-- A read-request value: the attribute-path list and the three optional fields;
`eventNumber` is a `uint64_t`. -/
structure ReadRequest where
  attributePathList : List Item
  attributeDataVersionList : Option (List Item)
  eventPaths : Option (List Item)
  eventNumber : Option Nat
deriving DecidableEq, Repr

/-- Modelled from the spec: the state of `ReadRequestMessage::Builder`
(`StructBuilder` and the implementation file are not among the sources): the
fields finished so far, the nested list that was begun and not yet ended (its tag
and elements), the sticky error, and whether the closing marker was written. -/
structure Builder where
  written : Fields
  nested : Option (Nat × List Item)
  mError : CHIP_ERROR
  ended : Bool
deriving DecidableEq, Repr

/-- A builder on an empty stream. -/
def Builder.init : Builder :=
  { written := [], nested := none, mError := .CHIP_NO_ERROR, ended := false }

/-- Modelled from the spec: `Create<SubBuilder>()` for the list with tag `tag`:
begins a nested structure.  It is a precondition that no nested structure is
still unfinished and the message is not ended; a call out of order leaves a
corrupt, unusable encoding (the sticky error). -/
def Builder.createList (b : Builder) (tag : Nat) : Builder :=
  if b.mError = .CHIP_NO_ERROR ∧ b.nested = none ∧ b.ended = false then
    { b with nested := some (tag, []) }
  else { b with mError := .CHIP_ERROR_MALFORMED }

/-- Modelled from the spec: the sub-builder appends one element to the nested
list it was created for. -/
def Builder.addItem (b : Builder) (item : Item) : Builder :=
  match b.nested with
  | some (tag, items) =>
    if b.mError = .CHIP_NO_ERROR then { b with nested := some (tag, items ++ [item]) } else b
  | none => { b with mError := .CHIP_ERROR_MALFORMED }

/-- Modelled from the spec: the explicit "end" of a sub-builder: the nested list
becomes a finished field of the parent. -/
def Builder.endOfList (b : Builder) : Builder :=
  match b.nested with
  | some (tag, items) =>
    if b.mError = .CHIP_NO_ERROR then
      { b with written := b.written ++ [(tag, .array items)], nested := none }
    else b
  | none => { b with mError := .CHIP_ERROR_MALFORMED }

/-- Modelled from the spec: `Builder::CreateAttributePathListBuilder`. -/
def Builder.CreateAttributePathListBuilder (b : Builder) : Builder :=
  b.createList kCsTag_AttributePathList

/-- Modelled from the spec: `Builder::CreateEventPathsBuilder`. -/
def Builder.CreateEventPathsBuilder (b : Builder) : Builder :=
  b.createList kCsTag_EventPaths

/-- Modelled from the spec: `Builder::CreateAttributeDataVersionListBuilder`. -/
def Builder.CreateAttributeDataVersionListBuilder (b : Builder) : Builder :=
  b.createList kCsTag_AttributeDataVersionList

/-- Modelled from the spec: `Builder::EventNumber`: a scalar setter, appends a
single tagged field. -/
def Builder.EventNumber (b : Builder) (aEventNumber : Nat) : Builder :=
  if b.mError = .CHIP_NO_ERROR ∧ b.nested = none ∧ b.ended = false then
    { b with written := b.written ++ [(kCsTag_EventNumber, .unsignedInteger aEventNumber)] }
  else { b with mError := .CHIP_ERROR_MALFORMED }

/-- Modelled from the spec: `Builder::EndOfReadRequestMessage`: writes the closing
marker and finalizes the structure. -/
def Builder.EndOfReadRequestMessage (b : Builder) : Builder :=
  if b.mError = .CHIP_NO_ERROR ∧ b.nested = none ∧ b.ended = false then
    { b with ended := true }
  else { b with mError := .CHIP_ERROR_MALFORMED }

/-- A caller that writes one list field: creates the sub-builder, appends the
elements, ends the sub-builder. -/
def Builder.writeList (b : Builder) (create : Builder → Builder) (items : List Item) :
    Builder :=
  (items.foldl Builder.addItem (create b)).endOfList

/-- A caller that encodes a read-request value with the builder: the
attribute-path list, then each optional field that is present, then the end of
the message. -/
def encode (v : ReadRequest) : Builder :=
  let b1 := Builder.init.writeList Builder.CreateAttributePathListBuilder v.attributePathList
  let b2 := match v.attributeDataVersionList with
    | some l => b1.writeList Builder.CreateAttributeDataVersionListBuilder l
    | none => b1
  let b3 := match v.eventPaths with
    | some l => b2.writeList Builder.CreateEventPathsBuilder l
    | none => b2
  let b4 := match v.eventNumber with
    | some n => b3.EventNumber n
    | none => b3
  b4.EndOfReadRequestMessage

/-- Modelled from the spec: the first field with the given tag ("read next
field's tag and value" until the tag is found). -/
def findElementWithTag : Fields → Nat → Option TLVValue
  | [], _ => none
  | (t, v) :: rest, tag => if t = tag then some v else findElementWithTag rest tag

/-- Modelled from the spec: a list getter of `Parser`: the elements of the list
with the given tag, "field absent" (`CHIP_END_OF_TLV`) when there is no such
field, a hard failure when the field is not a list. -/
def getList (fields : Fields) (tag : Nat) : Except CHIP_ERROR (List Item) :=
  match findElementWithTag fields tag with
  | none => .error .CHIP_END_OF_TLV
  | some (.array items) => .ok items
  | some (.unsignedInteger _) => .error .CHIP_ERROR_MALFORMED

/-- Modelled from the spec: `Parser::GetPathList`. -/
def GetPathList (fields : Fields) : Except CHIP_ERROR (List Item) :=
  getList fields kCsTag_AttributePathList

/-- Modelled from the spec: `Parser::GetEventPaths`. -/
def GetEventPaths (fields : Fields) : Except CHIP_ERROR (List Item) :=
  getList fields kCsTag_EventPaths

/-- Modelled from the spec: `Parser::GetAttributeDataVersionList`. -/
def GetAttributeDataVersionList (fields : Fields) : Except CHIP_ERROR (List Item) :=
  getList fields kCsTag_AttributeDataVersionList

/-- Modelled from the spec: `Parser::GetEventNumber`. -/
def GetEventNumber (fields : Fields) : Except CHIP_ERROR Nat :=
  match findElementWithTag fields kCsTag_EventNumber with
  | none => .error .CHIP_END_OF_TLV
  | some (.unsignedInteger v) => .ok v
  | some (.array _) => .error .CHIP_ERROR_MALFORMED

/-- Modelled from the spec: whether a field has the data type the schema expects
for its tag (check 2 of `CheckSchemaValidity`); a field with an unknown tag is
not constrained. -/
def hasExpectedType (tag : Nat) (v : TLVValue) : Bool :=
  if tag = kCsTag_AttributePathList ∨ tag = kCsTag_AttributeDataVersionList
      ∨ tag = kCsTag_EventPaths then
    match v with
    | .array _ => true
    | .unsignedInteger _ => false
  else if tag = kCsTag_EventNumber then
    match v with
    | .unsignedInteger _ => true
    | .array _ => false
  else true

/-- Modelled from the spec: the pass of `Parser::CheckSchemaValidity` over the
fields, `seen` being the tags recorded so far: a tag seen before is rejected, a
field of a schema tag with the wrong data type is rejected, a field with an
unknown tag is otherwise ignored; at the end the mandatory attribute-path list
tag must have been seen. -/
def checkFields : Fields → List Nat → CHIP_ERROR
  | [], seen =>
    if kCsTag_AttributePathList ∈ seen then .CHIP_NO_ERROR else .CHIP_ERROR_MALFORMED
  | (tag, v) :: rest, seen =>
    if tag ∈ seen then .CHIP_ERROR_MALFORMED
    else if hasExpectedType tag v = false then .CHIP_ERROR_MALFORMED
    else checkFields rest (tag :: seen)

/-- Modelled from the spec: `Parser::CheckSchemaValidity` (only its declaration
and documentation are among the sources). -/
def CheckSchemaValidity (fields : Fields) : CHIP_ERROR := checkFields fields []

end ReadRequestMessage

namespace OtaRequestor

/-- The constant `kImmediateStartDelayMs`. -/
def kImmediateStartDelayMs : Nat := 1

/-- The status values `HandleAnnounceOTAProvider` returns (`af-enums.h` is not
among the sources). -/
inductive EmberAfStatus where
  | EMBER_ZCL_STATUS_SUCCESS
  | EMBER_ZCL_STATUS_INVALID_ARGUMENT
deriving DecidableEq, Repr

/-- The values of the enumerators `EMBER_ZCL_OTA_ANNOUNCEMENT_REASON_*`, as
`uint8_t` (`enums.h` is not among the sources, so they are a parameter). -/
structure AnnouncementReasons where
  SIMPLE_ANNOUNCEMENT : Nat
  UPDATE_AVAILABLE : Nat
  URGENT_UPDATE_AVAILABLE : Nat
deriving DecidableEq, Repr

/-- Modelled from the spec: a fabric record (`FabricInfo`, not among the
sources): its index and its fabric id. -/
structure FabricInfo where
  fabricIndex : Nat
  fabricId : Nat
deriving DecidableEq, Repr

/-- Modelled from the spec: the externally owned fabric membership storage
(`FabricTable`, not among the sources). -/
abbrev FabricTable := List FabricInfo

/-- Modelled from the spec: `FabricTable::FindFabricWithIndex`, the lookup of a
fabric by index; `none` is the null pointer. -/
def FindFabricWithIndex (table : FabricTable) (fabricIndex : Nat) : Option FabricInfo :=
  table.find? (fun f => f.fabricIndex = fabricIndex)

/-- The field of `ControllerDeviceInitParams` the delegate reads: the fabric
table pointer, `none` when null. -/
structure ControllerDeviceInitParams where
  fabricsTable : Option FabricTable
deriving DecidableEq, Repr

/-- What the delegate reads of an exchange context: the fabric index of its
secure session. -/
structure ExchangeContext where
  fabricIndex : Nat
deriving DecidableEq, Repr

/-- What the delegate reads of a `CommandHandler`: its exchange context, `none`
when null. -/
structure CommandHandler where
  exchangeContext : Option ExchangeContext
deriving DecidableEq, Repr

/-- The data members of `ExampleRequestorDelegate` the source file uses;
`chip::Optional` members are options. -/
structure ExampleRequestorDelegate where
  mOtaStartDelayMs : Nat
  mProviderId : Option Nat
  mProviderFabricIndex : Option Nat
  mConnectParams : ControllerDeviceInitParams
deriving DecidableEq, Repr

/-- A timer pending in the system layer: its delay, and the `appState` pointer its
callback `StartDelayTimerHandler` will be given (the owner). -/
structure Timer where
  delayMs : Nat
  appState : Nat
deriving DecidableEq, Repr

/-- Modelled from the spec: the state of the external event loop
(`System::Layer`, not among the sources): the pending single-shot callbacks. -/
abbrev SystemLayer := List Timer

/-- Modelled from the spec: `System::Layer::StartTimer(delay, callback, context)`:
scheduling a callback while one is pending for the same owner cancels and
replaces the prior one. -/
def StartTimer (sys : SystemLayer) (delayMs : Nat) (appState : Nat) : SystemLayer :=
  sys.filter (fun t => t.appState ≠ appState) ++ [{ delayMs := delayMs, appState := appState }]

/-- Modelled from the spec: the delays with which the event loop will call
`StartDelayTimerHandler` for the owner `appState`: each pending callback fires
once. -/
def firesFor (sys : SystemLayer) (appState : Nat) : List Nat :=
  (sys.filter (fun t => t.appState = appState)).map Timer.delayMs

/-- The constructor `ExampleRequestorDelegate::ExampleRequestorDelegate`; the
members it does not set are default-constructed (no provider id, null fabric
table). -/
def ExampleRequestorDelegate.new : ExampleRequestorDelegate :=
  { mOtaStartDelayMs := 0, mProviderId := none, mProviderFabricIndex := some 0,
    mConnectParams := { fabricsTable := none } }

/-- The function `ExampleRequestorDelegate::Init`. -/
def ExampleRequestorDelegate.Init (d : ExampleRequestorDelegate)
    (connectParams : ControllerDeviceInitParams) (startDelayMs : Nat) : ExampleRequestorDelegate :=
  { d with mConnectParams := connectParams, mOtaStartDelayMs := startDelayMs }

/-- The function `ExampleRequestorDelegate::GetProviderFabricInfo`; `none` is the
null pointer. -/
def ExampleRequestorDelegate.GetProviderFabricInfo (d : ExampleRequestorDelegate) :
    Option FabricInfo :=
  match d.mConnectParams.fabricsTable with
  | none => none
  | some table =>
    match d.mProviderFabricIndex with
    | none => none
    | some index => FindFabricWithIndex table index

/-- The `switch (announcementReason)` of `HandleAnnounceOTAProvider`: the value
of `msToStart` after it. -/
def msToStart (reasons : AnnouncementReasons) (d : ExampleRequestorDelegate)
    (announcementReason : Nat) : Nat :=
  if announcementReason = reasons.SIMPLE_ANNOUNCEMENT
      ∨ announcementReason = reasons.UPDATE_AVAILABLE then d.mOtaStartDelayMs
  else if announcementReason = reasons.URGENT_UPDATE_AVAILABLE then kImmediateStartDelayMs
  else 0

/-- The function `ExampleRequestorDelegate::HandleAnnounceOTAProvider`, called on
the delegate at address `self` with state `d` while the system layer is `sys`.
Returns the status, the delegate and the system layer after the call. -/
def ExampleRequestorDelegate.HandleAnnounceOTAProvider (reasons : AnnouncementReasons)
    (self : Nat) (d : ExampleRequestorDelegate) (sys : SystemLayer)
    (commandObj : Option CommandHandler) (providerLocation : Nat) (_vendorId : Nat)
    (announcementReason : Nat) (_metadataForNode : List Nat) :
    EmberAfStatus × ExampleRequestorDelegate × SystemLayer :=
  match commandObj.bind CommandHandler.exchangeContext with
  | none => (.EMBER_ZCL_STATUS_INVALID_ARGUMENT, d, sys)
  | some exchangeContext =>
    let d1 := { d with mProviderId := some providerLocation }
    let d2 := { d1 with mProviderFabricIndex := some exchangeContext.fabricIndex }
    match d2.GetProviderFabricInfo with
    | none => (.EMBER_ZCL_STATUS_SUCCESS, d2, sys)
    | some _ =>
      (.EMBER_ZCL_STATUS_SUCCESS, d2,
        StartTimer sys (msToStart reasons d2 announcementReason) self)

/-- The ways `ExampleRequestorDelegate::ConnectToProvider` ends: one per
`VerifyOrReturn` that fails, or the logged connection attempt. -/
inductive ConnectOutcome where
  | missingProviderId
  | missingProviderFabricIndex
  | noFabricFound
  | wouldConnect
deriving DecidableEq, Repr

/-- The function `ExampleRequestorDelegate::ConnectToProvider`: it only logs, so the
result is the way it ends and the delegate, which it leaves as it was. -/
def ExampleRequestorDelegate.ConnectToProvider (d : ExampleRequestorDelegate) :
    ConnectOutcome × ExampleRequestorDelegate :=
  match d.mProviderId with
  | none => (.missingProviderId, d)
  | some _ =>
    match d.mProviderFabricIndex with
    | none => (.missingProviderFabricIndex, d)
    | some _ =>
      match d.GetProviderFabricInfo with
      | none => (.noFabricFound, d)
      | some _ => (.wouldConnect, d)

/-- The branch `ExampleRequestorDelegate::GetProviderFabricInfo` takes: the null
fabric table, the missing fabric index ("No FabricIndex value stored!"), or the
lookup in the table. -/
inductive FabricInfoBranch where
  | fabricTableNull
  | noFabricIndexStored
  | lookup
deriving DecidableEq, Repr

/-- The branch of `GetProviderFabricInfo` taken in the state `d`. -/
def ExampleRequestorDelegate.GetProviderFabricInfoBranch (d : ExampleRequestorDelegate) :
    FabricInfoBranch :=
  match d.mConnectParams.fabricsTable with
  | none => .fabricTableNull
  | some _ =>
    match d.mProviderFabricIndex with
    | none => .noFabricIndexStored
    | some _ => .lookup

/-- The states of a delegate reachable from its constructor by calls of `Init`,
`HandleAnnounceOTAProvider` and `ConnectToProvider` with any arguments. -/
inductive Reachable (reasons : AnnouncementReasons) : ExampleRequestorDelegate → Prop where
  | constructed : Reachable reasons ExampleRequestorDelegate.new
  | init (d : ExampleRequestorDelegate) (connectParams : ControllerDeviceInitParams)
      (startDelayMs : Nat) :
      Reachable reasons d → Reachable reasons (d.Init connectParams startDelayMs)
  | handleAnnounce (d : ExampleRequestorDelegate) (self : Nat) (sys : SystemLayer)
      (commandObj : Option CommandHandler) (providerLocation vendorId announcementReason : Nat)
      (metadataForNode : List Nat) :
      Reachable reasons d →
      Reachable reasons (d.HandleAnnounceOTAProvider reasons self sys commandObj
        providerLocation vendorId announcementReason metadataForNode).2.1
  | connect (d : ExampleRequestorDelegate) :
      Reachable reasons d → Reachable reasons d.ConnectToProvider.2

end OtaRequestor

namespace AttributeSize

/-! ## Memory and integer representation -/

/-- A byte inside the destination range of `memmove` is the source byte. -/
theorem memmove_inside (dest : Buf) (destOff : Nat) (src : Buf) (srcOff length i : Nat)
    (h1 : destOff ≤ i) (h2 : i < destOff + length) :
    memmove dest destOff src srcOff length i = src (srcOff + (i - destOff)) := by
  simp only [memmove, h1, h2, and_self, if_true]

/-- A byte outside the destination range of `memmove` is unchanged. -/
theorem memmove_outside (dest : Buf) (destOff : Nat) (src : Buf) (srcOff length i : Nat)
    (h : i < destOff ∨ destOff + length ≤ i) :
    memmove dest destOff src srcOff length i = dest i := by
  have : ¬ (destOff ≤ i ∧ i < destOff + length) := by omega
  simp only [memmove, this, if_false]

/-- The numeric value of byte `j` of `v`. -/
theorem leByte_val (v j : Nat) : (leByte v j).val = (v / 256 ^ j) % 256 := rfl

/-- Byte `k + 1` of `v` is byte `k` of `v / 256`. -/
theorem leByte_succ (v k : Nat) : leByte v (k + 1) = leByte (v / 256) k := by
  apply Fin.ext
  simp only [leByte_val, pow_succ, Nat.div_div_eq_div_mul]
  rw [Nat.mul_comm]

/-- The value `leValue w` depends on the first `w` bytes only. -/
theorem leValue_congr (w : Nat) : ∀ (b c : Buf), (∀ k, k < w → b k = c k) →
    leValue w b = leValue w c := by
  induction w with
  | zero => intro b c _; rfl
  | succ n ih =>
    intro b c h
    simp only [leValue]
    rw [h 0 (by omega), ih (fun k => b (k + 1)) (fun k => c (k + 1)) (fun k hk => h (k + 1) (by omega))]

/-- The `w` low bytes of `v` assemble to `v` reduced modulo `256 ^ w`. -/
theorem leValue_leByte (w : Nat) : ∀ v : Nat, leValue w (fun k => leByte v k) = v % 256 ^ w := by
  induction w with
  | zero => intro v; simp [leValue, Nat.mod_one]
  | succ n ih =>
    intro v
    simp only [leValue, leByte_succ, ih, leByte_val, pow_zero, Nat.div_one]
    rw [pow_succ, Nat.mul_comm (256 ^ n) 256, Nat.mod_mul]

/-- A `w`-byte value is below `256 ^ w`. -/
theorem leValue_lt (w : Nat) : ∀ b : Buf, leValue w b < 256 ^ w := by
  induction w with
  | zero => intro b; simp [leValue]
  | succ n ih =>
    intro b
    have h1 := ih (fun k => b (k + 1))
    have h2 := (b 0).isLt
    simp only [leValue, pow_succ]
    omega

/-- The host's byte positions of a `w`-byte object stay inside the object. -/
theorem hostPos_lt (bigEndian : Bool) (w k : Nat) (h : k < w) : hostPos bigEndian w k < w := by
  unfold hostPos; split <;> omega

/-- The map from memory offset to byte significance is an involution. -/
theorem hostPos_hostPos (bigEndian : Bool) (w k : Nat) (h : k < w) :
    hostPos bigEndian w (hostPos bigEndian w k) = k := by
  unfold hostPos
  cases bigEndian
  · simp
  · simp; omega

/-- Reading back, as a native `w`-byte integer, `w` bytes that hold the object
representation of `v` gives `v` reduced to `w` bytes. -/
theorem ofNative_of_bytes (bigEndian : Bool) (w v : Nat) (b : Buf)
    (h : ∀ k, k < w → b k = toNative bigEndian w v k) :
    ofNative bigEndian w b = v % 256 ^ w := by
  rw [← leValue_leByte]
  unfold ofNative
  apply leValue_congr
  intro k hk
  rw [h _ (hostPos_lt bigEndian w k hk)]
  simp only [toNative, hostPos_lt bigEndian w k hk, if_true, hostPos_hostPos bigEndian w k hk]

/-- Storing and loading a native integer gives the value reduced to its width. -/
theorem ofNative_toNative (bigEndian : Bool) (w v : Nat) :
    ofNative bigEndian w (toNative bigEndian w v) = v % 256 ^ w :=
  ofNative_of_bytes bigEndian w v _ (fun _ _ => rfl)

/-- The low byte stored by `emberAfCopyInt16u`. -/
theorem emberAfCopyInt16u_lo (data : Buf) (index x : Nat) :
    emberAfCopyInt16u data index x index = leByte x 0 := by
  simp [emberAfCopyInt16u]

/-- The high byte stored by `emberAfCopyInt16u`. -/
theorem emberAfCopyInt16u_hi (data : Buf) (index x : Nat) :
    emberAfCopyInt16u data index x (index + 1) = leByte x 1 := by
  simp [emberAfCopyInt16u]

/-- The store `emberAfCopyInt16u` changes two bytes only. -/
theorem emberAfCopyInt16u_outside (data : Buf) (index x i : Nat) (h : i < index ∨ index + 2 ≤ i) :
    emberAfCopyInt16u data index x i = data i := by
  have h1 : i ≠ index := by omega
  have h2 : i ≠ index + 1 := by omega
  simp only [emberAfCopyInt16u, h1, h2, if_false]

/-- The little-endian header written by `emberAfCopyInt16u` reads back as the
value reduced to 16 bits. -/
theorem getInt16u_copyInt16u (data : Buf) (index x n : Nat) :
    emberAfGetInt16u (emberAfCopyInt16u data index x) index n = x % 65536 := by
  simp only [emberAfGetInt16u, emberAfCopyInt16u_lo, emberAfCopyInt16u_hi, leByte_val]
  omega

/-- The stored byte string occupies `2 + length` bytes from `off`; nothing else changes. -/
theorem putSpan_outside (buffer : Buf) (off : Nat) (span : ByteSpan) (i : Nat)
    (h : i < off ∨ off + 2 + span.length ≤ i) : putSpan buffer off span i = buffer i := by
  have h1 : ¬ (off + 2 ≤ i ∧ i < off + 2 + span.length) := by omega
  simp only [putSpan, h1, if_false]
  exact emberAfCopyInt16u_outside buffer off span.length i (by omega)

/-- The payload bytes of a stored byte string follow its 2-byte length. -/
theorem putSpan_payload (buffer : Buf) (off : Nat) (span : ByteSpan) (k : Nat)
    (h : k < span.length) : putSpan buffer off span (off + 2 + k) = span.getD k 0 := by
  have h1 : off + 2 ≤ off + 2 + k ∧ off + 2 + k < off + 2 + span.length := by omega
  simp only [putSpan, h1, and_self, if_true, Nat.add_sub_cancel_left]

/-- The length field of a stored byte string reads back as its length. -/
theorem getInt16u_putSpan (buffer : Buf) (off : Nat) (span : ByteSpan) (n : Nat) :
    emberAfGetInt16u (putSpan buffer off span) off n = span.length % 65536 := by
  have h1 : ∀ i, i < off + 2 → putSpan buffer off span i = emberAfCopyInt16u buffer off span.length i := by
    intro i hi
    have : ¬ (off + 2 ≤ i ∧ i < off + 2 + span.length) := by omega
    simp only [putSpan, this, if_false]
  have := getInt16u_copyInt16u buffer off span.length n
  simp only [emberAfGetInt16u] at this ⊢
  rw [h1 off (by omega), h1 (off + 1) (by omega)]
  exact this

/-- The payload read from a slot depends on the payload bytes only. -/
theorem getSpan_congr (s t : Buf) (off len : Nat)
    (h : ∀ k, k < len → s (off + 2 + k) = t (off + 2 + k)) :
    getSpan s off len = getSpan t off len := by
  unfold getSpan
  apply List.map_congr_left
  intro k hk
  exact h k (List.mem_range.mp hk)

/-- A list is the list of its elements by position. -/
theorem range_map_getD (l : ByteSpan) : (List.range l.length).map (fun k => l.getD k 0) = l := by
  apply List.ext_getElem
  · simp
  · intro n h1 h2
    simp [List.getD_eq_getElem, h2]

/-- The payload of a stored byte string reads back unchanged. -/
theorem getSpan_putSpan (buffer : Buf) (off : Nat) (span : ByteSpan) :
    getSpan (putSpan buffer off span) off span.length = span := by
  unfold getSpan
  conv_rhs => rw [← range_map_getD span]
  apply List.map_congr_left
  intro k hk
  exact putSpan_payload buffer off span k (List.mem_range.mp hk)

/-! ## Sizing -/

/-- The check `CanCastTo<uint16_t>` as a proposition. -/
theorem canCast_iff (v : Int) : CanCastTo_uint16 v = true ↔ 0 ≤ v ∧ v ≤ 65535 := by
  simp [CanCastTo_uint16]

/-- The overflow check of the sizing operation, for a 16-bit count and a stride
of at most 120: the 32-bit sum does not wrap and is returned iff it is a 16-bit
value. -/
theorem totalSize_cast (n stride : Nat) (hn : n ≤ 65535) (hs : stride ≤ 120) :
    (if (!CanCastTo_uint16 (((2 + n * stride) % 2 ^ 32 : Nat) : Int)) = true then 0
      else (2 + n * stride) % 2 ^ 32 % 65536)
      = if 2 + n * stride ≤ 65535 then 2 + n * stride else 0 := by
  have hp : n * stride ≤ 65535 * 120 := Nat.mul_le_mul hn hs
  have hm : (2 + n * stride) % 2 ^ 32 = 2 + n * stride := Nat.mod_eq_of_lt (by omega)
  rw [hm]
  by_cases hle : 2 + n * stride ≤ 65535
  · have hcast : CanCastTo_uint16 ((2 + n * stride : Nat) : Int) = true := by
      rw [canCast_iff]; omega
    rw [hcast, if_pos hle]
    simp only [Bool.not_true, Bool.false_eq_true, if_false]
    omega
  · have hcast : CanCastTo_uint16 ((2 + n * stride : Nat) : Int) = false := by
      rw [← Bool.not_eq_true, canCast_iff]; omega
    rw [hcast, if_neg hle]
    simp

/-- The value of `emberAfAttributeValueListSize` in terms of the count header. -/
theorem listSize_eq (clusterId attributeId : Nat) (buffer : Buf) :
    emberAfAttributeValueListSize clusterId attributeId buffer =
      if (buffer 0).val + 256 * (buffer 1).val = 0xFFFF then 0
      else if 2 + ((buffer 0).val + 256 * (buffer 1).val) *
                (if clusterId = 0x003E ∧ attributeId = 0x0001 then 120 else 0) ≤ 65535
        then 2 + ((buffer 0).val + 256 * (buffer 1).val) *
                (if clusterId = 0x003E ∧ attributeId = 0x0001 then 120 else 0)
        else 0 := by
  have b0 := (buffer 0).isLt
  have b1 := (buffer 1).isLt
  have hst : (if clusterId = 0x003E then (if attributeId = 0x0001 then 120 else 0) else 0)
      = (if clusterId = 0x003E ∧ attributeId = 0x0001 then 120 else 0) := by
    by_cases hc : clusterId = 0x003E <;> by_cases ha : attributeId = 0x0001 <;> simp [hc, ha]
  have hs : (if clusterId = 0x003E ∧ attributeId = 0x0001 then 120 else 0) ≤ 120 := by
    split <;> omega
  simp only [emberAfAttributeValueListSize, emberAfGetInt16u, kSizeLengthInBytes, Nat.zero_add, hst]
  split
  · rfl
  · exact totalSize_cast _ _ (by omega) hs

/-- C2: for a count header `n = buffer[0] + 256 * buffer[1]` other than 0xFFFF the
size is exactly `2 + n * stride` when that is at most 65535 and 0 otherwise, with
stride 120 for (cluster 0x003E, attribute 0x0001) and 0 for every other pair; the
sum stays below `2 ^ 31`, so nothing wraps.  On the fabrics list `n = 546` gives
65522 and `n = 547` gives 0, and an unknown pair gives 2. -/
theorem listSize_exact (clusterId attributeId : Nat) (buffer : Buf)
    (h : (buffer 0).val + 256 * (buffer 1).val ≠ 0xFFFF) :
    emberAfAttributeValueListSize clusterId attributeId buffer
        = (if 2 + ((buffer 0).val + 256 * (buffer 1).val) *
                (if clusterId = 0x003E ∧ attributeId = 0x0001 then 120 else 0) ≤ 65535
           then 2 + ((buffer 0).val + 256 * (buffer 1).val) *
                (if clusterId = 0x003E ∧ attributeId = 0x0001 then 120 else 0)
           else 0) ∧
    2 + ((buffer 0).val + 256 * (buffer 1).val) *
        (if clusterId = 0x003E ∧ attributeId = 0x0001 then 120 else 0) < 2 ^ 31 ∧
    ((buffer 0).val + 256 * (buffer 1).val = 546 →
        emberAfAttributeValueListSize 0x003E 0x0001 buffer = 65522) ∧
    ((buffer 0).val + 256 * (buffer 1).val = 547 →
        emberAfAttributeValueListSize 0x003E 0x0001 buffer = 0) ∧
    (¬ (clusterId = 0x003E ∧ attributeId = 0x0001) →
        emberAfAttributeValueListSize clusterId attributeId buffer = 2) := by
  have b0 := (buffer 0).isLt
  have b1 := (buffer 1).isLt
  refine ⟨?_, ?_, ?_, ?_, ?_⟩
  · rw [listSize_eq, if_neg h]
  · have hs : (if clusterId = 0x003E ∧ attributeId = 0x0001 then 120 else 0) ≤ 120 := by
      split <;> omega
    have hp := Nat.mul_le_mul (show (buffer 0).val + 256 * (buffer 1).val ≤ 65535 by omega) hs
    omega
  · intro hn
    rw [listSize_eq, hn]; simp
  · intro hn
    rw [listSize_eq, hn]; simp
  · intro hne
    rw [listSize_eq, if_neg h, if_neg hne]; simp

/-- Witness for `listSize_exact`: the header 0x0222 = 546 on the fabrics list. -/
theorem listSize_exact_witness :
    ((((fun i => if i = 0 then 34 else if i = 1 then 2 else 0) : Buf) 0).val
        + 256 * (((fun i => if i = 0 then 34 else if i = 1 then 2 else 0) : Buf) 1).val ≠ 0xFFFF) ∧
    emberAfAttributeValueListSize 0x003E 0x0001
      (fun i => if i = 0 then 34 else if i = 1 then 2 else 0) = 65522 :=
  ⟨by decide,
   (listSize_exact 0x003E 0x0001 (fun i => if i = 0 then 34 else if i = 1 then 2 else 0)
      (by decide)).2.2.1 (by decide)⟩

/-- C1: a buffer whose first two bytes are 0xFF 0xFF (count header 0xFFFF) sizes
to 0, for every cluster id and attribute id. -/
theorem listSize_sentinel (clusterId attributeId : Nat) (buffer : Buf)
    (h0 : buffer 0 = 0xFF) (h1 : buffer 1 = 0xFF) :
    emberAfAttributeValueListSize clusterId attributeId buffer = 0 := by
  have e0 : (buffer 0).val = 255 := by rw [h0]; rfl
  have e1 : (buffer 1).val = 255 := by rw [h1]; rfl
  have hc : emberAfGetInt16u buffer 0 kSizeLengthInBytes = 0xFFFF := by
    simp only [emberAfGetInt16u, e0, e1]
  simp only [emberAfAttributeValueListSize, hc, if_true]

/-- Witness for `listSize_sentinel`: the all-0xFF buffer on the fabrics list. -/
theorem listSize_sentinel_witness :
    emberAfAttributeValueListSize 0x003E 0x0001 (fun _ => 0xFF) = 0 :=
  listSize_sentinel 0x003E 0x0001 (fun _ => 0xFF) rfl rfl

/-! ## Dispatch of `emberAfCopyList` -/

/-- Every rejection path of `emberAfCopyList` for an index that is not a mode
selector and is not a 16-bit value. -/
theorem copyList_not_castable (bigEndian : Bool) (clusterId : Nat) (am : EmberAfAttributeMetadata)
    (write : Bool) (dest src : Mem) (index : Int) (h : index < -1 ∨ 65535 < index) :
    emberAfCopyList bigEndian clusterId am write dest src index = some (0, dest) := by
  have h1 : index ≠ -1 := by omega
  have h0 : index ≠ 0 := by omega
  have hc : CanCastTo_uint16 index = false := by
    rw [← Bool.not_eq_true, canCast_iff]; omega
  simp [emberAfCopyList, h1, h0, hc]

/-- The bounds check of the fabrics list: an index whose entry starts past
`am.size - 120` is rejected and `dest` is left as it was. -/
theorem copyList_fabrics_rejected (bigEndian : Bool) (am : EmberAfAttributeMetadata)
    (write : Bool) (dest src : Mem) (index : Int) (hattr : am.attributeId = 0x0001)
    (h1 : 1 ≤ index) (hrej : (am.size : Int) - 120 < (index - 1) * 120) :
    emberAfCopyList bigEndian 0x003E am write dest src index = some (0, dest) := by
  have hm : index ≠ -1 := by omega
  have h0 : index ≠ 0 := by omega
  simp only [emberAfCopyList, hm, h0, if_false, hattr, if_true]
  split
  · rfl
  · simp only [gt_iff_lt, hrej, if_true]

/-- An index the bounds check of the fabrics list accepts reaches the entry copy
at offset `2 + (index - 1) * 120`, in the write direction. -/
theorem copyList_fabrics_write (bigEndian : Bool) (am : EmberAfAttributeMetadata)
    (d : Buf) (e : FabricDescriptor) (index : Nat) (hattr : am.attributeId = 0x0001)
    (hsz : am.size ≤ 65535) (h1 : 1 ≤ index) (hacc : index * 120 ≤ am.size) :
    emberAfCopyList bigEndian 0x003E am true (.raw d) (.fabric e) index
      = some (if (writeFabricEntry bigEndian d e (2 + (index - 1) * 120)).1 then 120 else 0,
              .raw (writeFabricEntry bigEndian d e (2 + (index - 1) * 120)).2.1) := by
  have hm : (index : Int) ≠ -1 := by omega
  have h0 : (index : Int) ≠ 0 := by omega
  have hc : CanCastTo_uint16 (index : Int) = true := by rw [canCast_iff]; omega
  have hnrej : ¬ ((index : Int) - 1) * 120 > (am.size : Int) - 120 := by omega
  have hoff : ((((kSizeLengthInBytes : Nat) : Int) + ((index : Int) - 1) * 120) % 65536).toNat
      = 2 + (index - 1) * 120 := by
    simp only [kSizeLengthInBytes]; omega
  simp only [emberAfCopyList, hm, h0, if_false, hattr, if_true, hc, Bool.not_true,
    Bool.false_eq_true, hnrej, hoff]

/-- An index the bounds check of the fabrics list accepts reaches the entry copy
at offset `2 + (index - 1) * 120`, in the read direction. -/
theorem copyList_fabrics_read (bigEndian : Bool) (am : EmberAfAttributeMetadata)
    (e : FabricDescriptor) (s : Buf) (index : Nat) (hattr : am.attributeId = 0x0001)
    (hsz : am.size ≤ 65535) (h1 : 1 ≤ index) (hacc : index * 120 ≤ am.size) :
    emberAfCopyList bigEndian 0x003E am false (.fabric e) (.raw s) index
      = some (if (readFabricEntry bigEndian e s (2 + (index - 1) * 120)).1 then 120 else 0,
              .fabric (readFabricEntry bigEndian e s (2 + (index - 1) * 120)).2.1) := by
  have hm : (index : Int) ≠ -1 := by omega
  have h0 : (index : Int) ≠ 0 := by omega
  have hc : CanCastTo_uint16 (index : Int) = true := by rw [canCast_iff]; omega
  have hnrej : ¬ ((index : Int) - 1) * 120 > (am.size : Int) - 120 := by omega
  have hoff : ((((kSizeLengthInBytes : Nat) : Int) + ((index : Int) - 1) * 120) % 65536).toNat
      = 2 + (index - 1) * 120 := by
    simp only [kSizeLengthInBytes]; omega
  simp only [emberAfCopyList, hm, h0, if_false, hattr, if_true, hc, Bool.not_true,
    Bool.false_eq_true, hnrej, hoff]

/-! ## The fabrics-list entry copy -/

/-- The bounded read `ReadByteSpan` looks at the bytes of its slot only. -/
theorem ReadByteSpan_congr (s t : Buf) (off n : Nat)
    (h : ∀ i, off ≤ i → i < off + n → s i = t i) :
    ReadByteSpan s off n = ReadByteSpan t off n := by
  unfold ReadByteSpan
  by_cases hn : 2 ≤ n
  · have hd : emberAfGetInt16u s off kSizeLengthInBytes = emberAfGetInt16u t off kSizeLengthInBytes := by
      simp only [emberAfGetInt16u]
      rw [h off (by omega) (by omega), h (off + 1) (by omega) (by omega)]
    simp only [hd]
    split
    · rename_i hfit
      rw [getSpan_congr s t off _ (fun k hk => h _ (by omega) (by omega))]
    · rfl
  · have h1 : ∀ x : Nat, ¬ (x + 2 ≤ n) := by intro x; omega
    simp only [h1, if_false]

/-- A byte string that fits its slot reads back from its stored form. -/
theorem ReadByteSpan_putSpan (buffer : Buf) (off n : Nat) (span : ByteSpan)
    (hfit : span.length + 2 ≤ n) (hn : n ≤ 65536) :
    ReadByteSpan (putSpan buffer off span) off n = some span := by
  unfold ReadByteSpan
  have hl : span.length % 65536 = span.length := Nat.mod_eq_of_lt (by omega)
  simp only [getInt16u_putSpan, hl, hfit, if_true, getSpan_putSpan]

/-- The destination buffer and running offset of a fabrics-list entry write whose
byte strings both fit their slots. -/
theorem writeFabricEntry_of_fits (bigEndian : Bool) (d : Buf) (e : FabricDescriptor) (o : Nat)
    (hf : e.Fits) (ho : o + 120 ≤ 65535) :
    writeFabricEntry bigEndian d e o =
      (true,
       putSpan (memmove (memmove (memmove (putSpan
          (memmove d o (toNative bigEndian 1 e.FabricIndex) 0 1) (o + 1) e.RootPublicKey)
          (o + 68) (toNative bigEndian 2 e.VendorId) 0 2)
          (o + 70) (toNative bigEndian 8 e.FabricId) 0 8)
          (o + 78) (toNative bigEndian 8 e.NodeId) 0 8) (o + 86) e.Label,
       o + 120) := by
  obtain ⟨hk, hl⟩ := hf
  have e1 : (o + 1) % 65536 = o + 1 := Nat.mod_eq_of_lt (by omega)
  have e2 : (o + 1 + 67) % 65536 = o + 68 := by omega
  have e3 : (o + 68 + 2) % 65536 = o + 70 := by omega
  have e4 : (o + 70 + 8) % 65536 = o + 78 := by omega
  have e5 : (o + 78 + 8) % 65536 = o + 86 := by omega
  have e6 : (o + 86 + 34) % 65536 = o + 120 := by omega
  simp only [writeFabricEntry, copyListMember, WriteByteSpan, if_true, e1, e2, e3, e4, e5, e6,
    hk, hl]


/-- A write of a fabrics-list entry whose byte strings fit changes no byte
outside the 120 bytes of the entry. -/
theorem writeFabricEntry_frame (bigEndian : Bool) (d : Buf) (e : FabricDescriptor) (o : Nat)
    (hf : e.Fits) (ho : o + 120 ≤ 65535) (i : Nat) (hi : i < o ∨ o + 120 ≤ i) :
    (writeFabricEntry bigEndian d e o).2.1 i = d i := by
  rw [writeFabricEntry_of_fits bigEndian d e o hf ho]
  obtain ⟨hk, hl⟩ := hf
  simp only []
  rw [putSpan_outside _ _ _ _ (by omega), memmove_outside _ _ _ _ _ _ (by omega),
    memmove_outside _ _ _ _ _ _ (by omega), memmove_outside _ _ _ _ _ _ (by omega),
    putSpan_outside _ _ _ _ (by omega), memmove_outside _ _ _ _ _ _ (by omega)]

/-- The result of reading a fabrics-list entry, when no running offset wraps. -/
theorem readFabricEntry_eq (bigEndian : Bool) (e0 : FabricDescriptor) (s : Buf) (o : Nat)
    (ho : o + 120 ≤ 65535) :
    readFabricEntry bigEndian e0 s o =
      match ReadByteSpan s (o + 1) 67 with
      | none => (false,
          { e0 with FabricIndex :=
              ofNative bigEndian 1 (memmove (toNative bigEndian 1 e0.FabricIndex) 0 s o 1) },
          o + 1)
      | some key =>
        match ReadByteSpan s (o + 86) 34 with
        | none => (false,
            { FabricIndex :=
                ofNative bigEndian 1 (memmove (toNative bigEndian 1 e0.FabricIndex) 0 s o 1),
              RootPublicKey := key,
              VendorId :=
                ofNative bigEndian 2 (memmove (toNative bigEndian 2 e0.VendorId) 0 s (o + 68) 2),
              FabricId :=
                ofNative bigEndian 8 (memmove (toNative bigEndian 8 e0.FabricId) 0 s (o + 70) 8),
              NodeId :=
                ofNative bigEndian 8 (memmove (toNative bigEndian 8 e0.NodeId) 0 s (o + 78) 8),
              Label := e0.Label },
            o + 86)
        | some label => (true,
            { FabricIndex :=
                ofNative bigEndian 1 (memmove (toNative bigEndian 1 e0.FabricIndex) 0 s o 1),
              RootPublicKey := key,
              VendorId :=
                ofNative bigEndian 2 (memmove (toNative bigEndian 2 e0.VendorId) 0 s (o + 68) 2),
              FabricId :=
                ofNative bigEndian 8 (memmove (toNative bigEndian 8 e0.FabricId) 0 s (o + 70) 8),
              NodeId :=
                ofNative bigEndian 8 (memmove (toNative bigEndian 8 e0.NodeId) 0 s (o + 78) 8),
              Label := label },
            o + 120) := by
  have e1 : (o + 1) % 65536 = o + 1 := Nat.mod_eq_of_lt (by omega)
  have e2 : (o + 1 + 67) % 65536 = o + 68 := by omega
  have e3 : (o + 68 + 2) % 65536 = o + 70 := by omega
  have e4 : (o + 70 + 8) % 65536 = o + 78 := by omega
  have e5 : (o + 78 + 8) % 65536 = o + 86 := by omega
  have e6 : (o + 86 + 34) % 65536 = o + 120 := by omega
  simp only [readFabricEntry, copyListMember, e1, e2, e3, e4, e5, e6, Bool.false_eq_true, if_false]

/-- The native integer a read-direction `copyListMember` leaves in a `w`-byte
field depends only on the `w` source bytes at the offset. -/
theorem ofNative_memmove (bigEndian : Bool) (w : Nat) (field s : Buf) (off : Nat) :
    ofNative bigEndian w (memmove field 0 s off w)
      = leValue w (fun k => s (off + hostPos bigEndian w k)) := by
  unfold ofNative
  apply leValue_congr
  intro k hk
  have := hostPos_lt bigEndian w k hk
  rw [memmove_inside _ _ _ _ _ _ (Nat.zero_le _) (by omega), Nat.sub_zero]

/-- Two reads of a native field from buffers that agree on the field agree. -/
theorem ofNative_memmove_congr (bigEndian : Bool) (w : Nat) (f g s t : Buf) (off : Nat)
    (h : ∀ k, k < w → s (off + k) = t (off + k)) :
    ofNative bigEndian w (memmove f 0 s off w) = ofNative bigEndian w (memmove g 0 t off w) := by
  rw [ofNative_memmove, ofNative_memmove]
  apply leValue_congr
  intro k hk
  exact h _ (hostPos_lt bigEndian w k hk)

/-- A native field read from bytes holding the representation of `v` is `v`
reduced to the field width. -/
theorem ofNative_memmove_of_bytes (bigEndian : Bool) (w v : Nat) (field s : Buf) (off : Nat)
    (h : ∀ k, k < w → s (off + k) = toNative bigEndian w v k) :
    ofNative bigEndian w (memmove field 0 s off w) = v % 256 ^ w := by
  apply ofNative_of_bytes
  intro k hk
  rw [memmove_inside _ _ _ _ _ _ (Nat.zero_le _) (by omega), Nat.sub_zero]
  exact h k hk

/-- Reading a fabrics-list entry looks at nothing but the 120 bytes of the entry,
and overwrites every field of the native entry. -/
theorem readFabricEntry_congr (bigEndian : Bool) (e0 e1 : FabricDescriptor) (s t : Buf) (o : Nat)
    (ho : o + 120 ≤ 65535) (h : ∀ i, o ≤ i → i < o + 120 → s i = t i)
    (hs : (readFabricEntry bigEndian e0 s o).1 = true) :
    readFabricEntry bigEndian e1 t o = readFabricEntry bigEndian e0 s o := by
  have hkey : ReadByteSpan s (o + 1) 67 = ReadByteSpan t (o + 1) 67 :=
    ReadByteSpan_congr s t (o + 1) 67 (fun i h1 h2 => h i (by omega) (by omega))
  have hlab : ReadByteSpan s (o + 86) 34 = ReadByteSpan t (o + 86) 34 :=
    ReadByteSpan_congr s t (o + 86) 34 (fun i h1 h2 => h i (by omega) (by omega))
  rw [readFabricEntry_eq bigEndian e0 s o ho] at hs ⊢
  rw [readFabricEntry_eq bigEndian e1 t o ho, ← hkey, ← hlab]
  cases hk : ReadByteSpan s (o + 1) 67 with
  | none => rw [hk] at hs; simp at hs
  | some key =>
    cases hl : ReadByteSpan s (o + 86) 34 with
    | none => rw [hk, hl] at hs; simp at hs
    | some label =>
      simp only []
      rw [ofNative_memmove_congr bigEndian 1 _ (toNative bigEndian 1 e0.FabricIndex) t s o
            (fun k hk => (h _ (by omega) (by omega)).symm),
          ofNative_memmove_congr bigEndian 2 _ (toNative bigEndian 2 e0.VendorId) t s (o + 68)
            (fun k hk => (h _ (by omega) (by omega)).symm),
          ofNative_memmove_congr bigEndian 8 _ (toNative bigEndian 8 e0.FabricId) t s (o + 70)
            (fun k hk => (h _ (by omega) (by omega)).symm),
          ofNative_memmove_congr bigEndian 8 _ (toNative bigEndian 8 e0.NodeId) t s (o + 78)
            (fun k hk => (h _ (by omega) (by omega)).symm)]

/-- Entry round trip at the level of the entry copy: reading the 120 bytes a
successful write produced gives back the written entry. -/
theorem readFabricEntry_writeFabricEntry (bigEndian : Bool) (d : Buf) (e e0 : FabricDescriptor)
    (o : Nat) (hr : e.InRange) (hf : e.Fits) (ho : o + 120 ≤ 65535) :
    readFabricEntry bigEndian e0 (writeFabricEntry bigEndian d e o).2.1 o = (true, e, o + 120) := by
  rw [writeFabricEntry_of_fits bigEndian d e o hf ho]
  obtain ⟨hk, hl⟩ := hf
  obtain ⟨r1, r2, r3, r4⟩ := hr
  simp only []
  rw [readFabricEntry_eq _ _ _ _ ho]
  have hkey : ReadByteSpan (putSpan (memmove (memmove (memmove (putSpan
          (memmove d o (toNative bigEndian 1 e.FabricIndex) 0 1) (o + 1) e.RootPublicKey)
          (o + 68) (toNative bigEndian 2 e.VendorId) 0 2)
          (o + 70) (toNative bigEndian 8 e.FabricId) 0 8)
          (o + 78) (toNative bigEndian 8 e.NodeId) 0 8) (o + 86) e.Label) (o + 1) 67
      = some e.RootPublicKey := by
    rw [← ReadByteSpan_putSpan (memmove d o (toNative bigEndian 1 e.FabricIndex) 0 1) (o + 1) 67
      e.RootPublicKey hk (by omega)]
    apply ReadByteSpan_congr
    intro i h1 h2
    rw [putSpan_outside _ _ _ _ (by omega), memmove_outside _ _ _ _ _ _ (by omega),
      memmove_outside _ _ _ _ _ _ (by omega), memmove_outside _ _ _ _ _ _ (by omega)]
  have hlab := ReadByteSpan_putSpan (memmove (memmove (memmove (putSpan
          (memmove d o (toNative bigEndian 1 e.FabricIndex) 0 1) (o + 1) e.RootPublicKey)
          (o + 68) (toNative bigEndian 2 e.VendorId) 0 2)
          (o + 70) (toNative bigEndian 8 e.FabricId) 0 8)
          (o + 78) (toNative bigEndian 8 e.NodeId) 0 8) (o + 86) 34 e.Label hl (by omega)
  rw [hkey, hlab]
  simp only []
  rw [ofNative_memmove_of_bytes bigEndian 1 e.FabricIndex, ofNative_memmove_of_bytes bigEndian 2 e.VendorId,
    ofNative_memmove_of_bytes bigEndian 8 e.FabricId, ofNative_memmove_of_bytes bigEndian 8 e.NodeId]
  · rw [Nat.mod_eq_of_lt (by omega : e.FabricIndex < 256 ^ 1),
      Nat.mod_eq_of_lt (by omega : e.VendorId < 256 ^ 2),
      Nat.mod_eq_of_lt (by omega : e.FabricId < 256 ^ 8),
      Nat.mod_eq_of_lt (by omega : e.NodeId < 256 ^ 8)]
  · intro k hk8
    rw [putSpan_outside _ _ _ _ (by omega), memmove_inside _ _ _ _ _ _ (by omega) (by omega)]
    congr 1; omega
  · intro k hk8
    rw [putSpan_outside _ _ _ _ (by omega), memmove_outside _ _ _ _ _ _ (by omega),
      memmove_inside _ _ _ _ _ _ (by omega) (by omega)]
    congr 1; omega
  · intro k hk2
    rw [putSpan_outside _ _ _ _ (by omega), memmove_outside _ _ _ _ _ _ (by omega),
      memmove_outside _ _ _ _ _ _ (by omega), memmove_inside _ _ _ _ _ _ (by omega) (by omega)]
    congr 1; omega
  · intro k hk1
    rw [putSpan_outside _ _ _ _ (by omega), memmove_outside _ _ _ _ _ _ (by omega),
      memmove_outside _ _ _ _ _ _ (by omega), memmove_outside _ _ _ _ _ _ (by omega),
      putSpan_outside _ _ _ _ (by omega), memmove_inside _ _ _ _ _ _ (by omega) (by omega)]
    congr 1; omega

/-! ## Bounds and index domain -/

/-- Success of an entry write is decided by the two byte strings alone. -/
theorem writeFabricEntry_ok (bigEndian : Bool) (d : Buf) (e : FabricDescriptor) (o : Nat)
    (hf : e.Fits) (ho : o + 120 ≤ 65535) : (writeFabricEntry bigEndian d e o).1 = true := by
  rw [writeFabricEntry_of_fits bigEndian d e o hf ho]

/-- An entry read succeeds when both byte-string reads do. -/
theorem readFabricEntry_ok (bigEndian : Bool) (e0 : FabricDescriptor) (s : Buf) (o : Nat)
    (ho : o + 120 ≤ 65535) (hk : (ReadByteSpan s (o + 1) 67).isSome = true)
    (hl : (ReadByteSpan s (o + 86) 34).isSome = true) :
    (readFabricEntry bigEndian e0 s o).1 = true := by
  rw [readFabricEntry_eq bigEndian e0 s o ho]
  cases h1 : ReadByteSpan s (o + 1) 67 with
  | none => rw [h1] at hk; simp at hk
  | some key =>
    cases h2 : ReadByteSpan s (o + 86) 34 with
    | none => rw [h2] at hl; simp at hl
    | some label => rfl

/-- C3: on the fabrics list with declared size `2 + 120 * N` (a buffer sized for
exactly `N` entries, `N = 0` included), index `N + 1` returns 0 in both directions
and leaves `dest` untouched, while every index `k` in `1 .. N` passes the bounds
check: the call is the entry copy at offset `2 + (k - 1) * 120`, and returns 120
when both byte-string copies succeed. -/
theorem copyList_index_past_end (bigEndian : Bool) (N : Nat) (hN : 2 + 120 * N ≤ 65535) :
    (∀ (write : Bool) (dest src : Mem),
      emberAfCopyList bigEndian 0x003E ⟨0x0001, 2 + 120 * N⟩ write dest src ((N : Int) + 1)
        = some (0, dest)) ∧
    (∀ k : Nat, 1 ≤ k → k ≤ N →
      (∀ (d : Buf) (e : FabricDescriptor),
        emberAfCopyList bigEndian 0x003E ⟨0x0001, 2 + 120 * N⟩ true (.raw d) (.fabric e) (k : Int)
          = some (if (writeFabricEntry bigEndian d e (2 + (k - 1) * 120)).1 then 120 else 0,
                  .raw (writeFabricEntry bigEndian d e (2 + (k - 1) * 120)).2.1)) ∧
      (∀ (e : FabricDescriptor) (s : Buf),
        emberAfCopyList bigEndian 0x003E ⟨0x0001, 2 + 120 * N⟩ false (.fabric e) (.raw s) (k : Int)
          = some (if (readFabricEntry bigEndian e s (2 + (k - 1) * 120)).1 then 120 else 0,
                  .fabric (readFabricEntry bigEndian e s (2 + (k - 1) * 120)).2.1)) ∧
      (∀ (d : Buf) (e : FabricDescriptor), e.Fits →
        retVal (emberAfCopyList bigEndian 0x003E ⟨0x0001, 2 + 120 * N⟩ true (.raw d) (.fabric e)
          (k : Int)) = some 120) ∧
      (∀ (e : FabricDescriptor) (s : Buf),
        (ReadByteSpan s (2 + (k - 1) * 120 + 1) 67).isSome = true →
        (ReadByteSpan s (2 + (k - 1) * 120 + 86) 34).isSome = true →
        retVal (emberAfCopyList bigEndian 0x003E ⟨0x0001, 2 + 120 * N⟩ false (.fabric e) (.raw s)
          (k : Int)) = some 120)) := by
  constructor
  · intro write dest src
    exact copyList_fabrics_rejected bigEndian ⟨0x0001, 2 + 120 * N⟩ write dest src _ rfl
      (by omega) (by simp only []; omega)
  · intro k hk1 hkN
    have hw := fun d e => copyList_fabrics_write bigEndian ⟨0x0001, 2 + 120 * N⟩ d e k rfl
      (by simp only []; omega) hk1 (by simp only []; omega)
    have hr := fun e s => copyList_fabrics_read bigEndian ⟨0x0001, 2 + 120 * N⟩ e s k rfl
      (by simp only []; omega) hk1 (by simp only []; omega)
    refine ⟨hw, hr, ?_, ?_⟩
    · intro d e hf
      rw [hw, writeFabricEntry_ok bigEndian d e _ hf (by omega)]
      rfl
    · intro e s h1 h2
      rw [hr, readFabricEntry_ok bigEndian e s _ (by omega) h1 h2]
      rfl

/-- Witness for `copyList_index_past_end`: `N = 0`, declared size 2, index 1. -/
theorem copyList_index_past_end_witness :
    2 + 120 * 0 ≤ 65535 ∧
    retVal (emberAfCopyList false 0x003E ⟨0x0001, 2 + 120 * 0⟩ true (.raw (fun _ => 0))
      (.fabric ⟨1, [], 0, 0, 0, []⟩) (((0 : Nat) : Int) + 1)) = some 0 :=
  ⟨by decide,
   congrArg retVal ((copyList_index_past_end false 0 (by decide)).1 true (.raw (fun _ => 0))
      (.fabric ⟨1, [], 0, 0, 0, []⟩))⟩

/-- C4 (evaluation at the failing input): with declared size 120 the entry of
index 1 ends at byte `2 + 0 * 120 + 120 = 122 > 120`, yet the write is accepted,
returns 120 and stores label bytes at offsets 120 and 121. -/
theorem copyList_entry_past_declared_size :
    2 + (1 - 1) * 120 + 120 > (120 : Nat) ∧
    retVal (emberAfCopyList false 0x003E ⟨0x0001, 120⟩ true (.raw (fun _ => 0))
      (.fabric ⟨1, [], 0, 0, 0, List.replicate 32 0xAA⟩) 1) = some 120 ∧
    (rawOut (emberAfCopyList false 0x003E ⟨0x0001, 120⟩ true (.raw (fun _ => 0))
      (.fabric ⟨1, [], 0, 0, 0, List.replicate 32 0xAA⟩) 1)).map (fun b => (b 120, b 121))
      = some (0xAA, 0xAA) := by
  refine ⟨by decide, by decide, by decide⟩

/-- C5: an index below -1 or at least 65535 is rejected with 0 and `dest` is left
untouched, for every cluster id, attribute metadata and direction; index 65535
passes the 16-bit cast check and is rejected all the same. -/
theorem copyList_index_out_of_domain (bigEndian : Bool) (clusterId : Nat)
    (am : EmberAfAttributeMetadata) (write : Bool) (dest src : Mem) (index : Int)
    (hsz : am.size ≤ 65535) (h : index < -1 ∨ 65535 ≤ index) :
    emberAfCopyList bigEndian clusterId am write dest src index = some (0, dest) ∧
    CanCastTo_uint16 65535 = true := by
  refine ⟨?_, by decide⟩
  by_cases hlast : index = 65535
  · subst hlast
    by_cases hc : clusterId = 0x003E
    · by_cases ha : am.attributeId = 0x0001
      · subst hc
        exact copyList_fabrics_rejected bigEndian am write dest src 65535 ha (by omega) (by omega)
      · simp [emberAfCopyList, hc, ha]
    · simp [emberAfCopyList, hc]
  · exact copyList_not_castable bigEndian clusterId am write dest src index (by omega)

/-- Witness for `copyList_index_out_of_domain`: index 65535 on the fabrics list
with the largest declared size. -/
theorem copyList_index_out_of_domain_witness :
    (65535 : Nat) ≤ 65535 ∧ ((65535 : Int) < -1 ∨ (65535 : Int) ≤ 65535) ∧
    retVal (emberAfCopyList false 0x003E ⟨0x0001, 65535⟩ true (.raw (fun _ => 0))
      (.fabric ⟨1, [], 0, 0, 0, []⟩) 65535) = some 0 :=
  ⟨by decide, by decide,
   congrArg retVal (copyList_index_out_of_domain false 0x003E ⟨0x0001, 65535⟩ true
      (.raw (fun _ => 0)) (.fabric ⟨1, [], 0, 0, 0, []⟩) 65535 (by decide) (by decide)).1⟩

/-! ## Entry layout, count header, bulk copy and round trips -/

/-- C6: a successful write of an accepted index `index >= 1` on the fabrics list
returns the stride 120 and lays the entry out at `o = 2 + (index - 1) * 120`:
fabric index at `o` (1 byte), root public key in the 67-byte slot at `o + 1`
(2-byte length, then payload), vendor id at `o + 68` (2 bytes), fabric id at
`o + 70` (8 bytes), node id at `o + 78` (8 bytes), label in the 34-byte slot at
`o + 86`; the widths sum to 120 and the running offset ends at `o + 120`. -/
theorem copyList_write_layout (bigEndian : Bool) (am : EmberAfAttributeMetadata) (d : Buf)
    (e : FabricDescriptor) (index : Nat) (hattr : am.attributeId = 0x0001)
    (hsz : am.size ≤ 65535) (h1 : 1 ≤ index) (hacc : index * 120 ≤ am.size) (hf : e.Fits) :
    ∃ w : Buf,
      emberAfCopyList bigEndian 0x003E am true (.raw d) (.fabric e) (index : Int)
        = some (120, .raw w) ∧
      (writeFabricEntry bigEndian d e (2 + (index - 1) * 120)).2.2
        = 2 + (index - 1) * 120 + 120 ∧
      w (2 + (index - 1) * 120) = toNative bigEndian 1 e.FabricIndex 0 ∧
      emberAfGetInt16u w (2 + (index - 1) * 120 + 1) kSizeLengthInBytes
        = e.RootPublicKey.length ∧
      (∀ k, k < e.RootPublicKey.length →
        w (2 + (index - 1) * 120 + 1 + 2 + k) = e.RootPublicKey.getD k 0) ∧
      (∀ k, k < 2 → w (2 + (index - 1) * 120 + 68 + k) = toNative bigEndian 2 e.VendorId k) ∧
      (∀ k, k < 8 → w (2 + (index - 1) * 120 + 70 + k) = toNative bigEndian 8 e.FabricId k) ∧
      (∀ k, k < 8 → w (2 + (index - 1) * 120 + 78 + k) = toNative bigEndian 8 e.NodeId k) ∧
      emberAfGetInt16u w (2 + (index - 1) * 120 + 86) kSizeLengthInBytes = e.Label.length ∧
      (∀ k, k < e.Label.length →
        w (2 + (index - 1) * 120 + 86 + 2 + k) = e.Label.getD k 0) ∧
      (∀ i, i < 2 + (index - 1) * 120 ∨ 2 + (index - 1) * 120 + 120 ≤ i → w i = d i) ∧
      1 + 67 + 2 + 8 + 8 + 34 = 120 := by
  have ho : 2 + (index - 1) * 120 + 120 ≤ 65535 := by omega
  have hcall := copyList_fabrics_write bigEndian am d e index hattr hsz h1 hacc
  have hclosed := writeFabricEntry_of_fits bigEndian d e (2 + (index - 1) * 120) hf ho
  have hframe := writeFabricEntry_frame bigEndian d e (2 + (index - 1) * 120) hf ho
  obtain ⟨hk, hl⟩ := hf
  have hkl : e.RootPublicKey.length % 65536 = e.RootPublicKey.length :=
    Nat.mod_eq_of_lt (by omega)
  have hll : e.Label.length % 65536 = e.Label.length := Nat.mod_eq_of_lt (by omega)
  refine ⟨(writeFabricEntry bigEndian d e (2 + (index - 1) * 120)).2.1, ?_, ?_, ?_, ?_, ?_, ?_,
    ?_, ?_, ?_, ?_, hframe, rfl⟩
  · rw [hcall, hclosed]; rfl
  · rw [hclosed]
  · rw [hclosed]; simp only []
    rw [putSpan_outside _ _ _ _ (by omega), memmove_outside _ _ _ _ _ _ (by omega),
      memmove_outside _ _ _ _ _ _ (by omega), memmove_outside _ _ _ _ _ _ (by omega),
      putSpan_outside _ _ _ _ (by omega), memmove_inside _ _ _ _ _ _ (by omega) (by omega)]
    congr 1; omega
  · rw [hclosed]; simp only []
    rw [← hkl, ← getInt16u_putSpan (memmove d (2 + (index - 1) * 120)
      (toNative bigEndian 1 e.FabricIndex) 0 1) (2 + (index - 1) * 120 + 1) e.RootPublicKey
      kSizeLengthInBytes]
    simp only [emberAfGetInt16u]
    rw [putSpan_outside _ _ _ _ (by omega), memmove_outside _ _ _ _ _ _ (by omega),
      memmove_outside _ _ _ _ _ _ (by omega), memmove_outside _ _ _ _ _ _ (by omega),
      putSpan_outside _ (2 + (index - 1) * 120 + 86) _ (2 + (index - 1) * 120 + 1 + 1) (by omega),
      memmove_outside _ _ _ _ _ _ (by omega),
      memmove_outside _ _ _ _ _ _ (by omega), memmove_outside _ _ _ _ _ _ (by omega)]
  · intro k hkk
    rw [hclosed]; simp only []
    rw [putSpan_outside _ _ _ _ (by omega), memmove_outside _ _ _ _ _ _ (by omega),
      memmove_outside _ _ _ _ _ _ (by omega), memmove_outside _ _ _ _ _ _ (by omega),
      putSpan_payload _ _ _ _ hkk]
  · intro k hkk
    rw [hclosed]; simp only []
    rw [putSpan_outside _ _ _ _ (by omega), memmove_outside _ _ _ _ _ _ (by omega),
      memmove_outside _ _ _ _ _ _ (by omega), memmove_inside _ _ _ _ _ _ (by omega) (by omega)]
    congr 1; omega
  · intro k hkk
    rw [hclosed]; simp only []
    rw [putSpan_outside _ _ _ _ (by omega), memmove_outside _ _ _ _ _ _ (by omega),
      memmove_inside _ _ _ _ _ _ (by omega) (by omega)]
    congr 1; omega
  · intro k hkk
    rw [hclosed]; simp only []
    rw [putSpan_outside _ _ _ _ (by omega), memmove_inside _ _ _ _ _ _ (by omega) (by omega)]
    congr 1; omega
  · rw [hclosed]; simp only []
    rw [getInt16u_putSpan, hll]
  · intro k hkk
    rw [hclosed]; simp only []
    rw [putSpan_payload _ _ _ _ hkk]

/-- Witness for `copyList_write_layout`: the first entry of a two-entry buffer on a
little-endian host. -/
theorem copyList_write_layout_witness :
    (1 : Nat) = 0x0001 ∧ (242 : Nat) ≤ 65535 ∧ 1 ≤ 1 ∧ 1 * 120 ≤ 242 ∧
    FabricDescriptor.Fits ⟨7, [1, 2, 3], 0x1234, 0x0102030405060708, 0x1112131415161718, [9, 8]⟩ ∧
    ∃ w : Buf,
      emberAfCopyList false 0x003E ⟨0x0001, 242⟩ true (.raw (fun _ => 0))
        (.fabric ⟨7, [1, 2, 3], 0x1234, 0x0102030405060708, 0x1112131415161718, [9, 8]⟩)
        ((1 : Nat) : Int) = some (120, .raw w) :=
  ⟨rfl, by decide, by decide, by decide, by decide,
   (copyList_write_layout false ⟨0x0001, 242⟩ (fun _ => 0)
      ⟨7, [1, 2, 3], 0x1234, 0x0102030405060708, 0x1112131415161718, [9, 8]⟩ 1 rfl
      (by decide) (by decide) (by decide) (by decide)).imp (fun _ h => h.1)⟩

/-- C7: entry round trip.  For a fabric descriptor whose fields are in range and
whose byte strings fit their slots, and an index `index >= 1` with
`2 + index * 120 <= am.size`, the write returns 120 and the read of the same index
from the written buffer returns 120 and leaves exactly the written descriptor in
the native entry, whatever it held before. -/
theorem copyList_entry_round_trip (bigEndian : Bool) (am : EmberAfAttributeMetadata) (d : Buf)
    (e : FabricDescriptor) (index : Nat) (hattr : am.attributeId = 0x0001)
    (hsz : am.size ≤ 65535) (h1 : 1 ≤ index) (hin : 2 + index * 120 ≤ am.size)
    (hr : e.InRange) (hf : e.Fits) :
    ∃ w : Buf,
      emberAfCopyList bigEndian 0x003E am true (.raw d) (.fabric e) (index : Int)
        = some (120, .raw w) ∧
      ∀ e0 : FabricDescriptor,
        emberAfCopyList bigEndian 0x003E am false (.fabric e0) (.raw w) (index : Int)
          = some (120, .fabric e) := by
  have ho : 2 + (index - 1) * 120 + 120 ≤ 65535 := by omega
  refine ⟨(writeFabricEntry bigEndian d e (2 + (index - 1) * 120)).2.1, ?_, ?_⟩
  · rw [copyList_fabrics_write bigEndian am d e index hattr hsz h1 (by omega),
      writeFabricEntry_ok bigEndian d e _ hf ho]
    rfl
  · intro e0
    rw [copyList_fabrics_read bigEndian am e0 _ index hattr hsz h1 (by omega),
      readFabricEntry_writeFabricEntry bigEndian d e e0 _ hr hf ho]
    rfl

/-- Witness for `copyList_entry_round_trip`: the second entry of a two-entry
buffer on a big-endian host. -/
theorem copyList_entry_round_trip_witness :
    (1 : Nat) = 0x0001 ∧ (242 : Nat) ≤ 65535 ∧ 1 ≤ 2 ∧ 2 + 2 * 120 ≤ 242 ∧
    FabricDescriptor.InRange
      ⟨7, [1, 2, 3], 0x1234, 0x0102030405060708, 0x1112131415161718, [9, 8]⟩ ∧
    FabricDescriptor.Fits
      ⟨7, [1, 2, 3], 0x1234, 0x0102030405060708, 0x1112131415161718, [9, 8]⟩ ∧
    ∃ w : Buf,
      emberAfCopyList true 0x003E ⟨0x0001, 242⟩ true (.raw (fun _ => 0))
        (.fabric ⟨7, [1, 2, 3], 0x1234, 0x0102030405060708, 0x1112131415161718, [9, 8]⟩)
        ((2 : Nat) : Int) = some (120, .raw w) ∧
      ∀ e0 : FabricDescriptor,
        emberAfCopyList true 0x003E ⟨0x0001, 242⟩ false (.fabric e0) (.raw w) ((2 : Nat) : Int)
          = some (120, .fabric
              ⟨7, [1, 2, 3], 0x1234, 0x0102030405060708, 0x1112131415161718, [9, 8]⟩) :=
  ⟨rfl, by decide, by decide, by decide, by decide, by decide,
   copyList_entry_round_trip true ⟨0x0001, 242⟩ (fun _ => 0)
      ⟨7, [1, 2, 3], 0x1234, 0x0102030405060708, 0x1112131415161718, [9, 8]⟩ 2 rfl
      (by decide) (by decide) (by decide) (by decide) (by decide)⟩

/-- The write direction of index 0: the native count at `src` is stored at
`dest` as a little-endian header. -/
theorem copyList_zero_write (bigEndian : Bool) (clusterId : Nat) (am : EmberAfAttributeMetadata)
    (d s : Buf) :
    emberAfCopyList bigEndian clusterId am true (.raw d) (.raw s) 0
      = some (2, .raw (emberAfCopyInt16u d 0 (ofNative bigEndian 2 s))) := by
  simp [emberAfCopyList, kSizeLengthInBytes]

/-- The read direction of index 0: the little-endian header at `src` is stored
at `dest` as a native count. -/
theorem copyList_zero_read (bigEndian : Bool) (clusterId : Nat) (am : EmberAfAttributeMetadata)
    (d s : Buf) :
    emberAfCopyList bigEndian clusterId am false (.raw d) (.raw s) 0
      = some (2, .raw (memmove d 0
          (toNative bigEndian 2 (emberAfGetInt16u s 0 kSizeLengthInBytes)) 0 2)) := by
  simp [emberAfCopyList, kSizeLengthInBytes]

/-- C9: index 0 returns 2 and converts between the native count and the
little-endian two-byte header, for every 16-bit count `c`, every cluster id and
either host byte order: the write stores `c mod 256` and `c div 256` at offsets 0
and 1 and changes nothing else, the read leaves the native value
`src[0] + 256 * src[1]`, and reading the written header back gives `c`. -/
theorem copyList_count_header (bigEndian : Bool) (clusterId : Nat)
    (am : EmberAfAttributeMetadata) (c : Nat) (hc : c < 65536) (d s : Buf) :
    (∃ w : Buf,
      emberAfCopyList bigEndian clusterId am true (.raw d) (.raw (toNative bigEndian 2 c)) 0
        = some (2, .raw w) ∧
      (w 0).val = c % 256 ∧ (w 1).val = c / 256 ∧ (∀ i, 2 ≤ i → w i = d i) ∧
      ∀ n0 : Buf, ∃ n : Buf,
        emberAfCopyList bigEndian clusterId am false (.raw n0) (.raw w) 0 = some (2, .raw n) ∧
        ofNative bigEndian 2 n = c) ∧
    (∃ n : Buf,
      emberAfCopyList bigEndian clusterId am false (.raw d) (.raw s) 0 = some (2, .raw n) ∧
      ofNative bigEndian 2 n = (s 0).val + 256 * (s 1).val) := by
  have hread : ∀ (n0 t : Buf),
      ofNative bigEndian 2
        (memmove n0 0 (toNative bigEndian 2 (emberAfGetInt16u t 0 kSizeLengthInBytes)) 0 2)
        = (t 0).val + 256 * (t 1).val := by
    intro n0 t
    have h0 := (t 0).isLt
    have h1 := (t 1).isLt
    rw [ofNative_memmove_of_bytes bigEndian 2 (emberAfGetInt16u t 0 kSizeLengthInBytes) _ _ 0
      (fun k _ => by rw [Nat.zero_add])]
    simp only [emberAfGetInt16u, Nat.zero_add]
    omega
  constructor
  · refine ⟨emberAfCopyInt16u d 0 (ofNative bigEndian 2 (toNative bigEndian 2 c)), ?_, ?_, ?_, ?_, ?_⟩
    · exact copyList_zero_write bigEndian clusterId am d _
    · rw [emberAfCopyInt16u_lo, ofNative_toNative, leByte_val]; omega
    · have := emberAfCopyInt16u_hi d 0 (ofNative bigEndian 2 (toNative bigEndian 2 c))
      rw [Nat.zero_add] at this
      rw [this, ofNative_toNative, leByte_val]; omega
    · intro i hi
      exact emberAfCopyInt16u_outside d 0 _ i (by omega)
    · intro n0
      refine ⟨_, copyList_zero_read bigEndian clusterId am n0 _, ?_⟩
      rw [hread, emberAfCopyInt16u_lo]
      have := emberAfCopyInt16u_hi d 0 (ofNative bigEndian 2 (toNative bigEndian 2 c))
      rw [Nat.zero_add] at this
      rw [this, ofNative_toNative, leByte_val, leByte_val]; omega
  · exact ⟨_, copyList_zero_read bigEndian clusterId am d s, hread d s⟩

/-- Witness for `copyList_count_header`: the count 0x1234 on a big-endian host. -/
theorem copyList_count_header_witness :
    (0x1234 : Nat) < 65536 ∧
    ∃ n : Buf,
      emberAfCopyList true 0x003E ⟨0x0001, 242⟩ false (.raw (fun _ => 0))
        (.raw (fun i => if i = 0 then 0x34 else 0x12)) 0 = some (2, .raw n) ∧
      ofNative true 2 n
        = (((fun i => if i = 0 then 0x34 else 0x12) : Buf) 0).val
          + 256 * (((fun i => if i = 0 then 0x34 else 0x12) : Buf) 1).val :=
  ⟨by decide,
   (copyList_count_header true 0x003E ⟨0x0001, 242⟩ 0x1234 (by decide) (fun _ => 0)
      (fun i => if i = 0 then 0x34 else 0x12)).2⟩

/-- The bulk mode of `emberAfCopyList`: one `memmove` of `am.size` bytes. -/
theorem copyList_minus_one (bigEndian : Bool) (clusterId : Nat) (am : EmberAfAttributeMetadata)
    (write : Bool) (d s : Buf) :
    emberAfCopyList bigEndian clusterId am write (.raw d) (.raw s) (-1)
      = some (am.size, .raw (memmove d 0 s 0 am.size)) := by
  simp [emberAfCopyList]

/-- C10: index -1 returns `am.size` and makes the first `am.size` bytes of `dest`
equal to those of `src`, byte for byte, leaving the rest of `dest` as it was; the
resulting bytes are the same for either host byte order, every cluster id, every
attribute id and either direction flag. -/
theorem copyList_bulk (size : Nat) (d s : Buf) :
    ∃ w : Buf,
      (∀ (bigEndian : Bool) (clusterId attributeId : Nat) (write : Bool),
        emberAfCopyList bigEndian clusterId ⟨attributeId, size⟩ write (.raw d) (.raw s) (-1)
          = some (size, .raw w)) ∧
      (∀ i, i < size → w i = s i) ∧
      (∀ i, size ≤ i → w i = d i) := by
  refine ⟨memmove d 0 s 0 size, ?_, ?_, ?_⟩
  · intro bigEndian clusterId attributeId write
    exact copyList_minus_one bigEndian clusterId ⟨attributeId, size⟩ write d s
  · intro i hi
    rw [memmove_inside _ _ _ _ _ _ (Nat.zero_le _) (by omega), Nat.zero_add, Nat.sub_zero]
  · intro i hi
    exact memmove_outside _ _ _ _ _ _ (by omega)

/-- The caller `writeEntries` on entries that fit: every call succeeds, no byte
outside the entries written is changed, and each written entry reads back. -/
theorem writeEntries_spec (bigEndian : Bool) (am : EmberAfAttributeMetadata)
    (hattr : am.attributeId = 0x0001) (hsz : am.size ≤ 65535) :
    ∀ (es : List FabricDescriptor) (first : Nat) (buf : Buf), 1 ≤ first →
      2 + (first - 1 + es.length) * 120 ≤ am.size →
      (∀ e, e ∈ es → e.InRange ∧ e.Fits) →
      ∃ b : Buf, writeEntries bigEndian am es first buf = some b ∧
        (∀ i, i < 2 + (first - 1) * 120 ∨ 2 + (first - 1 + es.length) * 120 ≤ i → b i = buf i) ∧
        (∀ (k : Nat) (hk : k < es.length) (e0 : FabricDescriptor),
          readFabricEntry bigEndian e0 b (2 + (first - 1 + k) * 120)
            = (true, es[k], 2 + (first - 1 + k) * 120 + 120)) := by
  intro es
  induction es with
  | nil =>
    intro first buf _ _ _
    exact ⟨buf, rfl, fun _ _ => rfl, fun k hk => absurd hk (Nat.not_lt_zero k)⟩
  | cons e rest ih =>
    intro first buf h1 hfit hall
    simp only [List.length_cons] at hfit
    obtain ⟨hr, hf⟩ := hall e (List.mem_cons_self e rest)
    have ho : 2 + (first - 1) * 120 + 120 ≤ 65535 := by omega
    have hcall := copyList_fabrics_write bigEndian am buf e first hattr hsz h1 (by omega)
    rw [writeFabricEntry_ok bigEndian buf e _ hf ho] at hcall
    obtain ⟨b, hb, hframe, hread⟩ := ih (first + 1)
      (writeFabricEntry bigEndian buf e (2 + (first - 1) * 120)).2.1 (by omega)
      (by simp only [Nat.add_sub_cancel]; omega)
      (fun x hx => hall x (List.mem_cons_of_mem e hx))
    simp only [Nat.add_sub_cancel] at hframe hread
    refine ⟨b, ?_, ?_, ?_⟩
    · simp only [writeEntries, hcall, retVal, rawOut, Option.map_some', if_true, Option.some_bind]
      exact hb
    · intro i hi
      simp only [List.length_cons] at hi
      rw [hframe i (by omega)]
      exact writeFabricEntry_frame bigEndian buf e _ hf ho i (by omega)
    · intro k hk e0
      cases k with
      | zero =>
        simp only [Nat.add_zero, List.getElem_cons_zero]
        have hrt := readFabricEntry_writeFabricEntry bigEndian buf e e0 _ hr hf ho
        rw [← hrt]
        apply readFabricEntry_congr bigEndian e0 e0 _ b _ ho
        · intro i hi1 hi2
          exact (hframe i (by omega)).symm
        · rw [hrt]
      | succ j =>
        simp only [List.length_cons] at hk
        have := hread j (by omega) e0
        simp only [List.getElem_cons_succ]
        have harith : first - 1 + (j + 1) = first + j := by omega
        rw [harith]
        exact this

/-- C8: list round trip.  For `N` fabric descriptors that are in range and fit
their slots and a buffer of declared size `2 + 120 * N`: writing the count with
index 0 and entry `k` with index `k` (`1 .. N`) succeeds; in the resulting buffer
the header holds `N` and the read of every index `k` returns 120 and the `k`-th
descriptor unchanged; and the same reads from a bulk copy of the buffer made with
index -1 give the same descriptors. -/
theorem copyList_list_round_trip (bigEndian : Bool) (am : EmberAfAttributeMetadata)
    (es : List FabricDescriptor) (buf : Buf) (hattr : am.attributeId = 0x0001)
    (hsize : am.size = 2 + 120 * es.length) (hsz : am.size ≤ 65535)
    (hall : ∀ e, e ∈ es → e.InRange ∧ e.Fits) :
    ∃ b : Buf, encodeList bigEndian am es buf = some b ∧
      emberAfGetInt16u b 0 kSizeLengthInBytes = es.length ∧
      (∀ (k : Nat) (hk : k < es.length) (e0 : FabricDescriptor),
        emberAfCopyList bigEndian 0x003E am false (.fabric e0) (.raw b) ((k + 1 : Nat) : Int)
          = some (120, .fabric es[k])) ∧
      (∀ (write : Bool) (d0 : Buf), ∃ c : Buf,
        emberAfCopyList bigEndian 0x003E am write (.raw d0) (.raw b) (-1)
          = some (am.size, .raw c) ∧
        ∀ (k : Nat) (hk : k < es.length) (e0 : FabricDescriptor),
          emberAfCopyList bigEndian 0x003E am false (.fabric e0) (.raw c) ((k + 1 : Nat) : Int)
            = some (120, .fabric es[k])) := by
  obtain ⟨b, hb, hframe, hread⟩ := writeEntries_spec bigEndian am hattr hsz es 1
    (emberAfCopyInt16u buf 0 (ofNative bigEndian 2 (toNative bigEndian 2 es.length)))
    (Nat.le_refl 1) (by omega) hall
  simp only [Nat.sub_self, Nat.zero_add, Nat.zero_mul, Nat.add_zero] at hframe hread
  have hcount : emberAfGetInt16u b 0 kSizeLengthInBytes = es.length := by
    have h := getInt16u_copyInt16u buf 0 (ofNative bigEndian 2 (toNative bigEndian 2 es.length))
      kSizeLengthInBytes
    simp only [emberAfGetInt16u] at h ⊢
    rw [hframe 0 (by omega), hframe (0 + 1) (by omega), h, ofNative_toNative]
    omega
  have hentry : ∀ (t : Buf), (∀ i, i < am.size → t i = b i) →
      ∀ (k : Nat) (hk : k < es.length) (e0 : FabricDescriptor),
        emberAfCopyList bigEndian 0x003E am false (.fabric e0) (.raw t) ((k + 1 : Nat) : Int)
          = some (120, .fabric es[k]) := by
    intro t ht k hk e0
    have ho : 2 + k * 120 + 120 ≤ 65535 := by omega
    rw [copyList_fabrics_read bigEndian am e0 t (k + 1) hattr hsz (by omega) (by omega)]
    simp only [Nat.add_sub_cancel]
    rw [readFabricEntry_congr bigEndian e0 e0 b t (2 + k * 120) ho
      (fun i h1 h2 => (ht i (by omega)).symm) (by rw [hread k hk e0]), hread k hk e0]
    rfl
  refine ⟨b, ?_, hcount, hentry b (fun _ _ => rfl), ?_⟩
  · simp only [encodeList, copyList_zero_write, rawOut, Option.some_bind]
    exact hb
  · intro write d0
    refine ⟨memmove d0 0 b 0 am.size, copyList_minus_one bigEndian 0x003E am write d0 b,
      hentry _ (fun i hi => ?_)⟩
    rw [memmove_inside _ _ _ _ _ _ (Nat.zero_le _) (by omega), Nat.zero_add, Nat.sub_zero]

/-- Witness for `copyList_list_round_trip`: a list of two descriptors in a buffer
of declared size 242 on a little-endian host. -/
theorem copyList_list_round_trip_witness :
    (1 : Nat) = 0x0001 ∧
    (242 : Nat) = 2 + 120 * List.length
      [(⟨7, [1, 2, 3], 0x1234, 0x0102030405060708, 0x1112131415161718, [9, 8]⟩ : FabricDescriptor),
       ⟨8, [], 0xFFF1, 1, 2, [0x41]⟩] ∧
    (242 : Nat) ≤ 65535 ∧
    (∀ e, e ∈ [(⟨7, [1, 2, 3], 0x1234, 0x0102030405060708, 0x1112131415161718, [9, 8]⟩ :
        FabricDescriptor), ⟨8, [], 0xFFF1, 1, 2, [0x41]⟩] → e.InRange ∧ e.Fits) ∧
    ∃ b : Buf, encodeList false ⟨0x0001, 242⟩
      [(⟨7, [1, 2, 3], 0x1234, 0x0102030405060708, 0x1112131415161718, [9, 8]⟩ : FabricDescriptor),
       ⟨8, [], 0xFFF1, 1, 2, [0x41]⟩] (fun _ => 0) = some b ∧
      emberAfGetInt16u b 0 kSizeLengthInBytes = 2 :=
  ⟨rfl, by decide, by decide, by decide,
   (copyList_list_round_trip false ⟨0x0001, 242⟩
      [(⟨7, [1, 2, 3], 0x1234, 0x0102030405060708, 0x1112131415161718, [9, 8]⟩ : FabricDescriptor),
       ⟨8, [], 0xFFF1, 1, 2, [0x41]⟩] (fun _ => 0) rfl (by decide) (by decide)
      (by decide)).imp (fun _ h => ⟨h.1, h.2.1⟩)⟩

/-! ## Host byte order of the integer fields, unknown pairs -/

/-- C11 (evaluation at the failing input): on a big-endian host the write of an
entry with vendor id 0x1234, fabric id 0x0102030405060708 and node id
0x1112131415161718 stores the three integers most significant byte first at
relative offsets 68, 70 and 78 (the host's object bytes, moved by
`copyListMember`), while the count 0x1234 written by the same host with index 0
is stored little-endian. -/
theorem copyList_integer_fields_host_order :
    (rawOut (emberAfCopyList true 0x003E ⟨0x0001, 122⟩ true (.raw (fun _ => 0))
        (.fabric ⟨1, [], 0x1234, 0x0102030405060708, 0x1112131415161718, []⟩) 1)).map
      (fun b => (List.range 18).map (fun k => b (2 + 68 + k)))
      = some [0x12, 0x34, 1, 2, 3, 4, 5, 6, 7, 8, 0x11, 0x12, 0x13, 0x14, 0x15, 0x16, 0x17, 0x18] ∧
    (rawOut (emberAfCopyList true 0x003E ⟨0x0001, 122⟩ true (.raw (fun _ => 0))
        (.raw (toNative true 2 0x1234)) 0)).map (fun b => [b 0, b 1])
      = some [0x34, 0x12] := by
  refine ⟨by decide, by decide⟩

/-- C12: for every (clusterId, attributeId) pair other than (0x003E, 0x0001), every
index in 1..65535, every declared size and either direction, `emberAfCopyList`
returns 0 and leaves the memory at `dest` as it was (nothing is ever stored
through `src`). -/
theorem copyList_unknown_pair (bigEndian : Bool) (clusterId : Nat)
    (am : EmberAfAttributeMetadata) (write : Bool) (dest src : Mem) (index : Int)
    (hpair : ¬ (clusterId = 0x003E ∧ am.attributeId = 0x0001))
    (h1 : 1 ≤ index) (h2 : index ≤ 65535) :
    emberAfCopyList bigEndian clusterId am write dest src index = some (0, dest) := by
  have hm : index ≠ -1 := by omega
  have h0 : index ≠ 0 := by omega
  have hc : CanCastTo_uint16 index = true := by rw [canCast_iff]; omega
  by_cases hcl : clusterId = 0x003E
  · have ha : ¬ am.attributeId = 0x0001 := fun h => hpair ⟨hcl, h⟩
    simp [emberAfCopyList, hm, h0, hc, hcl, ha]
  · simp [emberAfCopyList, hm, h0, hc, hcl]

/-- Witness for `copyList_unknown_pair`: attribute 0x0002 of the operational
credentials cluster, index 1, write direction. -/
theorem copyList_unknown_pair_witness :
    ¬ ((0x003E : Nat) = 0x003E ∧ (EmberAfAttributeMetadata.mk 0x0002 242).attributeId = 0x0001) ∧
    (1 : Int) ≤ 1 ∧ (1 : Int) ≤ 65535 ∧
    retVal (emberAfCopyList false 0x003E ⟨0x0002, 242⟩ true (.raw (fun _ => 0))
      (.fabric ⟨1, [], 0, 0, 0, []⟩) 1) = some 0 :=
  ⟨by decide, by decide, by decide,
   congrArg retVal (copyList_unknown_pair false 0x003E ⟨0x0002, 242⟩ true (.raw (fun _ => 0))
      (.fabric ⟨1, [], 0, 0, 0, []⟩) 1 (by decide) (by decide) (by decide))⟩

/-! ## Failed writes, frame and offset arithmetic -/

/-- An entry write whose root public key does not fit its slot stops after the
fabric index byte. -/
theorem writeFabricEntry_key_too_long (bigEndian : Bool) (d : Buf) (e : FabricDescriptor)
    (o : Nat) (hk : ¬ e.RootPublicKey.length + 2 ≤ 67) (ho : o + 120 ≤ 65535) :
    writeFabricEntry bigEndian d e o
      = (false, memmove d o (toNative bigEndian 1 e.FabricIndex) 0 1, o + 1) := by
  have e1 : (o + 1) % 65536 = o + 1 := Nat.mod_eq_of_lt (by omega)
  simp only [writeFabricEntry, copyListMember, WriteByteSpan, if_true, e1, hk, if_false]

/-- An entry write whose root public key fits and whose label does not fit its slot
stops after the node id. -/
theorem writeFabricEntry_label_too_long (bigEndian : Bool) (d : Buf) (e : FabricDescriptor)
    (o : Nat) (hk : e.RootPublicKey.length + 2 ≤ 67) (hl : ¬ e.Label.length + 2 ≤ 34)
    (ho : o + 120 ≤ 65535) :
    writeFabricEntry bigEndian d e o
      = (false,
         memmove (memmove (memmove (putSpan
            (memmove d o (toNative bigEndian 1 e.FabricIndex) 0 1) (o + 1) e.RootPublicKey)
            (o + 68) (toNative bigEndian 2 e.VendorId) 0 2)
            (o + 70) (toNative bigEndian 8 e.FabricId) 0 8)
            (o + 78) (toNative bigEndian 8 e.NodeId) 0 8,
         o + 86) := by
  have e1 : (o + 1) % 65536 = o + 1 := Nat.mod_eq_of_lt (by omega)
  have e2 : (o + 1 + 67) % 65536 = o + 68 := by omega
  have e3 : (o + 68 + 2) % 65536 = o + 70 := by omega
  have e4 : (o + 70 + 8) % 65536 = o + 78 := by omega
  have e5 : (o + 78 + 8) % 65536 = o + 86 := by omega
  simp only [writeFabricEntry, copyListMember, WriteByteSpan, if_true, e1, e2, e3, e4, e5,
    hk, hl, if_false]

/-- An entry write, whether it succeeds or fails, changes no byte outside the 120
bytes of the entry. -/
theorem writeFabricEntry_frame_any (bigEndian : Bool) (d : Buf) (e : FabricDescriptor) (o : Nat)
    (ho : o + 120 ≤ 65535) (i : Nat) (hi : i < o ∨ o + 120 ≤ i) :
    (writeFabricEntry bigEndian d e o).2.1 i = d i := by
  by_cases hk : e.RootPublicKey.length + 2 ≤ 67
  · by_cases hl : e.Label.length + 2 ≤ 34
    · exact writeFabricEntry_frame bigEndian d e o ⟨hk, hl⟩ ho i hi
    · rw [writeFabricEntry_label_too_long bigEndian d e o hk hl ho]
      simp only []
      rw [memmove_outside _ _ _ _ _ _ (by omega),
        memmove_outside _ _ _ _ _ _ (by omega), memmove_outside _ _ _ _ _ _ (by omega),
        putSpan_outside _ _ _ _ (by omega), memmove_outside _ _ _ _ _ _ (by omega)]
  · rw [writeFabricEntry_key_too_long bigEndian d e o hk ho]
    simp only []
    rw [memmove_outside _ _ _ _ _ _ (by omega)]

/-- The running offset an entry write ends with: past the entry on success, at the
slot of the byte string that did not fit on failure. -/
theorem writeFabricEntry_offset (bigEndian : Bool) (d : Buf) (e : FabricDescriptor) (o : Nat)
    (ho : o + 120 ≤ 65535) :
    (writeFabricEntry bigEndian d e o).2.2 =
      if e.RootPublicKey.length + 2 ≤ 67 then
        (if e.Label.length + 2 ≤ 34 then o + 120 else o + 86)
      else o + 1 := by
  by_cases hk : e.RootPublicKey.length + 2 ≤ 67
  · by_cases hl : e.Label.length + 2 ≤ 34
    · rw [writeFabricEntry_of_fits bigEndian d e o ⟨hk, hl⟩ ho, if_pos hk, if_pos hl]
    · rw [writeFabricEntry_label_too_long bigEndian d e o hk hl ho, if_pos hk, if_neg hl]
  · rw [writeFabricEntry_key_too_long bigEndian d e o hk ho, if_neg hk]

/-- C22: frame of writes.  A write with index 0 returns 2 and changes no
destination byte outside [0, 2); a write with an accepted index `index >= 1` on
the fabrics list, whether it returns 120 or fails with 0, changes no destination
byte outside [2 + (index-1)*120, 2 + index*120), so neither the count header nor
any other entry. -/
theorem copyList_write_frame (bigEndian : Bool) (clusterId : Nat)
    (am : EmberAfAttributeMetadata) (d s : Buf) :
    (∃ w : Buf,
      emberAfCopyList bigEndian clusterId am true (.raw d) (.raw s) 0 = some (2, .raw w) ∧
      ∀ i, 2 ≤ i → w i = d i) ∧
    (∀ (e : FabricDescriptor) (index : Nat), am.attributeId = 0x0001 → am.size ≤ 65535 →
      1 ≤ index → index * 120 ≤ am.size →
      ∃ (r : Nat) (w : Buf),
        emberAfCopyList bigEndian 0x003E am true (.raw d) (.fabric e) (index : Int)
          = some (r, .raw w) ∧
        (r = 120 ∨ r = 0) ∧
        (∀ i, i < 2 + (index - 1) * 120 ∨ 2 + index * 120 ≤ i → w i = d i) ∧
        (∀ i, i < 2 → w i = d i)) := by
  constructor
  · exact ⟨_, copyList_zero_write bigEndian clusterId am d s,
      fun i hi => emberAfCopyInt16u_outside d 0 _ i (by omega)⟩
  · intro e index hattr hsz h1 hacc
    have ho : 2 + (index - 1) * 120 + 120 ≤ 65535 := by omega
    refine ⟨_, _, copyList_fabrics_write bigEndian am d e index hattr hsz h1 hacc, ?_, ?_, ?_⟩
    · cases (writeFabricEntry bigEndian d e (2 + (index - 1) * 120)).1
      · exact Or.inr rfl
      · exact Or.inl rfl
    · intro i hi
      exact writeFabricEntry_frame_any bigEndian d e _ ho i (by omega)
    · intro i hi
      exact writeFabricEntry_frame_any bigEndian d e _ ho i (by omega)

/-- Witness for `copyList_write_frame`: a failing write (label of 40 bytes) of the
second entry of a two-entry buffer. -/
theorem copyList_write_frame_witness :
    (EmberAfAttributeMetadata.mk 0x0001 242).attributeId = 0x0001 ∧
    (EmberAfAttributeMetadata.mk 0x0001 242).size ≤ 65535 ∧ 1 ≤ 2 ∧
    2 * 120 ≤ (EmberAfAttributeMetadata.mk 0x0001 242).size ∧
    ∃ (r : Nat) (w : Buf),
      emberAfCopyList false 0x003E ⟨0x0001, 242⟩ true (.raw (fun _ => 0))
        (.fabric ⟨7, [1, 2, 3], 0x1234, 5, 6, List.replicate 40 0xAA⟩) ((2 : Nat) : Int)
        = some (r, .raw w) ∧
      (r = 120 ∨ r = 0) ∧
      (∀ i, i < 2 + (2 - 1) * 120 ∨ 2 + 2 * 120 ≤ i → w i = (fun _ => 0 : Buf) i) ∧
      (∀ i, i < 2 → w i = (fun _ => 0 : Buf) i) :=
  ⟨rfl, by decide, by decide, by decide,
   (copyList_write_frame false 0x003E ⟨0x0001, 242⟩ (fun _ => 0) (fun _ => 0)).2
     ⟨7, [1, 2, 3], 0x1234, 5, 6, List.replicate 40 0xAA⟩ 2 rfl (by decide) (by decide)
     (by decide)⟩

/-- C23: when the bounds check of the fabrics list accepts an index `index >= 1`,
`index * 120 <= am.size`, hence `index <= 546`, and no 16-bit offset computation
wraps: the `uint16_t` entry offset is exactly `2 + (index-1)*120`, the call is the
entry copy at that offset, and the running offset ends at `2 + index*120 <= 65522`
after the last sub-field (in a write that fails it stops at the slot of the byte
string that did not fit). -/
theorem copyList_accepted_no_wrap (bigEndian : Bool) (am : EmberAfAttributeMetadata)
    (index : Int) (hattr : am.attributeId = 0x0001) (hsz : am.size ≤ 65535) (h1 : 1 ≤ index)
    (hacc : ¬ ((index - 1) * 120 > (am.size : Int) - 120)) :
    index * 120 ≤ (am.size : Int) ∧ index ≤ 546 ∧
    ((((kSizeLengthInBytes : Nat) : Int) + (index - 1) * 120) % 65536).toNat
      = 2 + (index.toNat - 1) * 120 ∧
    2 + index.toNat * 120 ≤ 65522 ∧
    (∀ (d : Buf) (e : FabricDescriptor),
      emberAfCopyList bigEndian 0x003E am true (.raw d) (.fabric e) index
        = some (if (writeFabricEntry bigEndian d e (2 + (index.toNat - 1) * 120)).1
                  then 120 else 0,
                .raw (writeFabricEntry bigEndian d e (2 + (index.toNat - 1) * 120)).2.1) ∧
      (writeFabricEntry bigEndian d e (2 + (index.toNat - 1) * 120)).2.2 =
        if e.RootPublicKey.length + 2 ≤ 67 then
          (if e.Label.length + 2 ≤ 34 then 2 + index.toNat * 120
           else 2 + (index.toNat - 1) * 120 + 86)
        else 2 + (index.toNat - 1) * 120 + 1) ∧
    (∀ (e0 : FabricDescriptor) (s : Buf),
      emberAfCopyList bigEndian 0x003E am false (.fabric e0) (.raw s) index
        = some (if (readFabricEntry bigEndian e0 s (2 + (index.toNat - 1) * 120)).1
                  then 120 else 0,
                .fabric (readFabricEntry bigEndian e0 s (2 + (index.toNat - 1) * 120)).2.1) ∧
      ((readFabricEntry bigEndian e0 s (2 + (index.toNat - 1) * 120)).1 = true →
        (readFabricEntry bigEndian e0 s (2 + (index.toNat - 1) * 120)).2.2
          = 2 + index.toNat * 120)) := by
  have hidx : ((index.toNat : Nat) : Int) = index := Int.toNat_of_nonneg (by omega)
  have hn1 : 1 ≤ index.toNat := by omega
  have hnacc : index.toNat * 120 ≤ am.size := by omega
  have ho : 2 + (index.toNat - 1) * 120 + 120 ≤ 65535 := by omega
  refine ⟨by omega, by omega, ?_, by omega, ?_, ?_⟩
  · simp only [kSizeLengthInBytes]; omega
  · intro d e
    constructor
    · have := copyList_fabrics_write bigEndian am d e index.toNat hattr hsz hn1 hnacc
      rw [hidx] at this
      exact this
    · rw [writeFabricEntry_offset bigEndian d e _ ho]
      have harith : 2 + (index.toNat - 1) * 120 + 120 = 2 + index.toNat * 120 := by omega
      rw [harith]
  · intro e0 s
    constructor
    · have := copyList_fabrics_read bigEndian am e0 s index.toNat hattr hsz hn1 hnacc
      rw [hidx] at this
      exact this
    · intro hok
      rw [readFabricEntry_eq bigEndian e0 s _ ho] at hok ⊢
      cases hk : ReadByteSpan s (2 + (index.toNat - 1) * 120 + 1) 67 with
      | none => rw [hk] at hok; simp at hok
      | some key =>
        cases hl : ReadByteSpan s (2 + (index.toNat - 1) * 120 + 86) 34 with
        | none => rw [hk, hl] at hok; simp at hok
        | some label =>
          simp only []
          omega

/-- Witness for `copyList_accepted_no_wrap`: the largest accepted index, 546, with
the largest declared size. -/
theorem copyList_accepted_no_wrap_witness :
    (EmberAfAttributeMetadata.mk 0x0001 65535).attributeId = 0x0001 ∧
    (EmberAfAttributeMetadata.mk 0x0001 65535).size ≤ 65535 ∧ (1 : Int) ≤ 546 ∧
    ¬ (((546 : Int) - 1) * 120 > (((EmberAfAttributeMetadata.mk 0x0001 65535).size : Nat) : Int) - 120) ∧
    ((((kSizeLengthInBytes : Nat) : Int) + ((546 : Int) - 1) * 120) % 65536).toNat
      = 2 + ((546 : Int).toNat - 1) * 120 :=
  ⟨rfl, by decide, by decide, by decide,
   (copyList_accepted_no_wrap false ⟨0x0001, 65535⟩ 546 rfl (by decide) (by decide)
     (by decide)).2.2.1⟩

/-- C27: a failing entry write is not atomic.  With an accepted index, a root
public key that fits its 67-byte slot and a label that does not fit its 34-byte
slot, the call returns 0 although the destination already holds the entry's
fabric index, root public key, vendor id, fabric id and node id; only the label
slot and the bytes outside the entry are as before.  With a root public key that
does not fit its slot the call returns 0 after storing the fabric index byte and
nothing else. -/
theorem copyList_failed_write_not_atomic (bigEndian : Bool) (am : EmberAfAttributeMetadata)
    (d : Buf) (e : FabricDescriptor) (index : Nat) (hattr : am.attributeId = 0x0001)
    (hsz : am.size ≤ 65535) (h1 : 1 ≤ index) (hacc : index * 120 ≤ am.size) :
    (e.RootPublicKey.length + 2 ≤ 67 → ¬ e.Label.length + 2 ≤ 34 →
      ∃ w : Buf,
        emberAfCopyList bigEndian 0x003E am true (.raw d) (.fabric e) (index : Int)
          = some (0, .raw w) ∧
        w (2 + (index - 1) * 120) = toNative bigEndian 1 e.FabricIndex 0 ∧
        emberAfGetInt16u w (2 + (index - 1) * 120 + 1) kSizeLengthInBytes
          = e.RootPublicKey.length ∧
        (∀ k, k < e.RootPublicKey.length →
          w (2 + (index - 1) * 120 + 1 + 2 + k) = e.RootPublicKey.getD k 0) ∧
        (∀ k, k < 2 → w (2 + (index - 1) * 120 + 68 + k) = toNative bigEndian 2 e.VendorId k) ∧
        (∀ k, k < 8 → w (2 + (index - 1) * 120 + 70 + k) = toNative bigEndian 8 e.FabricId k) ∧
        (∀ k, k < 8 → w (2 + (index - 1) * 120 + 78 + k) = toNative bigEndian 8 e.NodeId k) ∧
        (∀ i, i < 2 + (index - 1) * 120 ∨ 2 + (index - 1) * 120 + 86 ≤ i → w i = d i)) ∧
    (¬ e.RootPublicKey.length + 2 ≤ 67 →
      ∃ w : Buf,
        emberAfCopyList bigEndian 0x003E am true (.raw d) (.fabric e) (index : Int)
          = some (0, .raw w) ∧
        w (2 + (index - 1) * 120) = toNative bigEndian 1 e.FabricIndex 0 ∧
        (∀ i, i ≠ 2 + (index - 1) * 120 → w i = d i)) := by
  have ho : 2 + (index - 1) * 120 + 120 ≤ 65535 := by omega
  have hcall := copyList_fabrics_write bigEndian am d e index hattr hsz h1 hacc
  constructor
  · intro hk hl
    have hclosed := writeFabricEntry_label_too_long bigEndian d e (2 + (index - 1) * 120) hk hl ho
    have hkl : e.RootPublicKey.length % 65536 = e.RootPublicKey.length :=
      Nat.mod_eq_of_lt (by omega)
    rw [hclosed] at hcall
    refine ⟨_, hcall, ?_, ?_, ?_, ?_, ?_, ?_, ?_⟩
    · simp only []
      rw [memmove_outside _ _ _ _ _ _ (by omega),
        memmove_outside _ _ _ _ _ _ (by omega), memmove_outside _ _ _ _ _ _ (by omega),
        putSpan_outside _ _ _ _ (by omega), memmove_inside _ _ _ _ _ _ (by omega) (by omega)]
      congr 1; omega
    · simp only []
      rw [← hkl, ← getInt16u_putSpan (memmove d (2 + (index - 1) * 120)
        (toNative bigEndian 1 e.FabricIndex) 0 1) (2 + (index - 1) * 120 + 1) e.RootPublicKey
        kSizeLengthInBytes]
      simp only [emberAfGetInt16u]
      rw [memmove_outside _ _ _ _ _ _ (by omega),
        memmove_outside _ _ _ _ _ _ (by omega), memmove_outside _ _ _ _ _ _ (by omega),
        memmove_outside _ _ _ _ _ _ (by omega),
        memmove_outside _ _ _ _ _ _ (by omega), memmove_outside _ _ _ _ _ _ (by omega)]
    · intro k hkk
      simp only []
      rw [memmove_outside _ _ _ _ _ _ (by omega),
        memmove_outside _ _ _ _ _ _ (by omega), memmove_outside _ _ _ _ _ _ (by omega),
        putSpan_payload _ _ _ _ hkk]
    · intro k hkk
      simp only []
      rw [memmove_outside _ _ _ _ _ _ (by omega),
        memmove_outside _ _ _ _ _ _ (by omega), memmove_inside _ _ _ _ _ _ (by omega) (by omega)]
      congr 1; omega
    · intro k hkk
      simp only []
      rw [memmove_outside _ _ _ _ _ _ (by omega),
        memmove_inside _ _ _ _ _ _ (by omega) (by omega)]
      congr 1; omega
    · intro k hkk
      simp only []
      rw [memmove_inside _ _ _ _ _ _ (by omega) (by omega)]
      congr 1; omega
    · intro i hi
      simp only []
      rw [memmove_outside _ _ _ _ _ _ (by omega),
        memmove_outside _ _ _ _ _ _ (by omega), memmove_outside _ _ _ _ _ _ (by omega),
        putSpan_outside _ _ _ _ (by omega), memmove_outside _ _ _ _ _ _ (by omega)]
  · intro hk
    have hclosed := writeFabricEntry_key_too_long bigEndian d e (2 + (index - 1) * 120) hk ho
    rw [hclosed] at hcall
    refine ⟨_, hcall, ?_, ?_⟩
    · simp only []
      rw [memmove_inside _ _ _ _ _ _ (by omega) (by omega)]
      congr 1; omega
    · intro i hi
      simp only []
      rw [memmove_outside _ _ _ _ _ _ (by omega)]

/-- Witness for `copyList_failed_write_not_atomic`: a descriptor with a 3-byte root
public key and a 40-byte label, written as the first entry into a zeroed buffer:
the call returns 0 and the buffer holds the fabric index 7, the key length 3 and
the low vendor id byte 0x34 where it held zeros. -/
theorem copyList_failed_write_not_atomic_witness :
    (EmberAfAttributeMetadata.mk 0x0001 242).attributeId = 0x0001 ∧
    (EmberAfAttributeMetadata.mk 0x0001 242).size ≤ 65535 ∧ 1 ≤ 1 ∧
    1 * 120 ≤ (EmberAfAttributeMetadata.mk 0x0001 242).size ∧
    (∃ w : Buf,
      emberAfCopyList false 0x003E ⟨0x0001, 242⟩ true (.raw (fun _ => 0))
        (.fabric ⟨7, [1, 2, 3], 0x1234, 5, 6, List.replicate 40 0xAA⟩) ((1 : Nat) : Int)
        = some (0, .raw w) ∧
      w (2 + (1 - 1) * 120) = toNative false 1 7 0) ∧
    (rawOut (emberAfCopyList false 0x003E ⟨0x0001, 242⟩ true (.raw (fun _ => 0))
        (.fabric ⟨7, [1, 2, 3], 0x1234, 5, 6, List.replicate 40 0xAA⟩) ((1 : Nat) : Int))).map
      (fun b => [b 2, b 3, b 70]) = some [7, 3, 0x34] :=
  ⟨rfl, by decide, by decide, by decide,
   ((copyList_failed_write_not_atomic false ⟨0x0001, 242⟩ (fun _ => 0)
      ⟨7, [1, 2, 3], 0x1234, 5, 6, List.replicate 40 0xAA⟩ 1 rfl (by decide) (by decide)
      (by decide)).1 (by decide) (by decide)).imp (fun _ h => ⟨h.1, h.2.1⟩),
   by decide⟩

end AttributeSize

/-! # Privilege table and access gate (`zap-generated/access.h`) -/

namespace AccessPrivilege

/-- C13: the read-attribute rows contain (cluster 31, attribute 0) with the
privilege administer at the same position of the parallel privilege array, the
invoke-command rows contain (cluster 62, command 0) with administer at the same
position, and a lookup of either pair returns administer. -/
theorem table_example_rows :
    (31, 0, Privilege.administer) ∈
      List.zip GENERATED_ACCESS_READ_ATTRIBUTE__CLUSTER
        (List.zip GENERATED_ACCESS_READ_ATTRIBUTE__ATTRIBUTE
          GENERATED_ACCESS_READ_ATTRIBUTE__PRIVILEGE) ∧
    (62, 0, Privilege.administer) ∈
      List.zip GENERATED_ACCESS_INVOKE_COMMAND__CLUSTER
        (List.zip GENERATED_ACCESS_INVOKE_COMMAND__COMMAND
          GENERATED_ACCESS_INVOKE_COMMAND__PRIVILEGE) ∧
    Lookup .readAttribute 31 0 = some .administer ∧
    Lookup .invokeCommand 62 0 = some .administer := by
  decide

/-- A pair that is not a row of the parallel arrays has no explicit rule. -/
theorem lookupRows_absent (clusterId elementId : Nat) :
    ∀ (cs es : List Nat) (ps : List Privilege),
      (clusterId, elementId) ∉ List.zip cs es →
      lookupRows cs es ps clusterId elementId = none := by
  intro cs
  induction cs with
  | nil => intro es ps _; rfl
  | cons c cs ih =>
    intro es ps h
    cases es with
    | nil => rfl
    | cons e es =>
      cases ps with
      | nil => rfl
      | cons p ps =>
        simp only [List.zip_cons_cons, List.mem_cons, Prod.mk.injEq, not_or] at h
        have hne : ¬ (c = clusterId ∧ e = elementId) := fun hh => h.1 ⟨hh.1.symm, hh.2.symm⟩
        simp only [lookupRows, hne, if_false]
        exact ih es ps h.2

/-- C14: for every access kind, a (cluster, element) pair that is not a row of
that kind's parallel arrays has no explicit rule: the lookup returns `none`.
Examples: invoke-command (62, 1), read-attribute (62, 1) and write-attribute
(62, 0); the last pair is a row of the read-attribute arrays only. -/
theorem lookup_no_explicit_rule (kind : AccessKind) (clusterId elementId : Nat)
    (h : (clusterId, elementId) ∉ List.zip (clusterArray kind) (elementArray kind)) :
    Lookup kind clusterId elementId = none ∧
    Lookup .invokeCommand 62 1 = none ∧
    Lookup .readAttribute 62 1 = none ∧
    Lookup .writeAttribute 62 0 = none ∧
    Lookup .readAttribute 62 0 = some .administer := by
  exact ⟨lookupRows_absent clusterId elementId _ _ _ h, by decide, by decide, by decide, by decide⟩

/-- Witness for `lookup_no_explicit_rule`: invoke-command (62, 1). -/
theorem lookup_no_explicit_rule_witness :
    (62, 1) ∉ List.zip (clusterArray .invokeCommand) (elementArray .invokeCommand) ∧
    Lookup .invokeCommand 62 1 = none :=
  ⟨by decide, (lookup_no_explicit_rule .invokeCommand 62 1 (by decide)).1⟩

/-- C15: for the invoke-command rule on (cluster 62, command 0) the access gate
admits a caller exactly when the caller's privilege is at least administer under
view < operate < manage < administer, whatever the default policy: view, operate
and manage are rejected, administer is admitted. -/
theorem gate_invoke_operational_credentials (defaultPolicy : AccessKind → Privilege)
    (p : Privilege) :
    (AccessGate defaultPolicy .invokeCommand 62 0 (some p) = true ↔ Privilege.administer ≤ p) ∧
    AccessGate defaultPolicy .invokeCommand 62 0 (some .view) = false ∧
    AccessGate defaultPolicy .invokeCommand 62 0 (some .operate) = false ∧
    AccessGate defaultPolicy .invokeCommand 62 0 (some .manage) = false ∧
    AccessGate defaultPolicy .invokeCommand 62 0 (some .administer) = true ∧
    (Privilege.view ≤ Privilege.operate ∧ Privilege.operate ≤ Privilege.manage ∧
      Privilege.manage ≤ Privilege.administer ∧ ¬ Privilege.operate ≤ Privilege.view ∧
      ¬ Privilege.manage ≤ Privilege.operate ∧ ¬ Privilege.administer ≤ Privilege.manage) := by
  have hl : Lookup .invokeCommand 62 0 = some .administer := by decide
  refine ⟨?_, ?_, ?_, ?_, ?_, by decide⟩
  · simp only [AccessGate, hl, decide_eq_true_eq]
  all_goals simp only [AccessGate, hl]; decide

/-- With no (cluster, element) pair occurring twice, the scan returns `p` exactly
when `(cluster, element, p)` is a row: the result is a matter of membership, not
of the order of the search. -/
theorem lookupRows_eq_some_iff (clusterId elementId : Nat) (p : Privilege) :
    ∀ (cs es : List Nat) (ps : List Privilege), cs.length = es.length →
      es.length = ps.length → (List.zip cs es).Nodup →
      (lookupRows cs es ps clusterId elementId = some p ↔
        (clusterId, elementId, p) ∈ List.zip cs (List.zip es ps)) := by
  intro cs
  induction cs with
  | nil =>
    intro es ps _ _ _
    simp [lookupRows]
  | cons c cs ih =>
    intro es ps h1 h2 hnd
    cases es with
    | nil => simp at h1
    | cons e es =>
      cases ps with
      | nil => simp at h2
      | cons q ps =>
        simp only [List.length_cons, Nat.add_right_cancel_iff] at h1 h2
        simp only [List.zip_cons_cons, List.nodup_cons] at hnd
        simp only [lookupRows, List.zip_cons_cons, List.mem_cons, Prod.mk.injEq]
        by_cases hm : c = clusterId ∧ e = elementId
        · obtain ⟨hc, he⟩ := hm
          subst hc he
          simp only [and_self, if_true, Option.some.injEq, true_and]
          constructor
          · intro h; exact Or.inl h.symm
          · rintro (h | h)
            · exact h.symm
            · exfalso
              apply hnd.1
              have := (List.of_mem_zip h).2
              have h3 := (List.of_mem_zip this).1
              have h4 := (List.of_mem_zip h).1
              have hz : (List.zip cs (List.zip es ps)).map (fun t => (t.1, t.2.1))
                  = List.zip cs es := by
                clear h ih hnd this h3 h4
                induction cs generalizing es ps with
                | nil => simp
                | cons a cs ih2 =>
                  cases es with
                  | nil => simp
                  | cons b es =>
                    cases ps with
                    | nil => simp at h2
                    | cons r ps =>
                      simp only [List.length_cons, Nat.add_right_cancel_iff] at h1 h2
                      simp only [List.zip_cons_cons, List.map_cons, List.cons.injEq, true_and]
                      exact ih2 es ps h1 h2
              rw [← hz]
              exact List.mem_map.mpr ⟨_, h, rfl⟩
        · simp only [hm, if_false]
          rw [ih es ps h1 h2 hnd.2]
          constructor
          · intro h; exact Or.inr h
          · rintro (h | h)
            · exact absurd ⟨h.1.symm, h.2.1.symm⟩ hm
            · exact h

/-- C24: the generated privilege table is well formed.  For each access kind the
cluster, element and privilege arrays have the same length (3, 2, 9 and 2 rows
for read-attribute, write-attribute, invoke-command and read-event); the
(cluster, element) pairs are strictly increasing in lexicographic order, so no
pair occurs twice; and a lookup returns `p` exactly when `(cluster, element, p)`
is a row of the kind, wherever the row stands. -/
theorem table_well_formed (kind : AccessKind) :
    (clusterArray kind).length = (elementArray kind).length ∧
    (elementArray kind).length = (privilegeArray kind).length ∧
    (clusterArray .readAttribute).length = 3 ∧ (clusterArray .writeAttribute).length = 2 ∧
    (clusterArray .invokeCommand).length = 9 ∧ (clusterArray .readEvent).length = 2 ∧
    (List.zip (clusterArray kind) (elementArray kind)).Pairwise
      (fun a b => a.1 < b.1 ∨ (a.1 = b.1 ∧ a.2 < b.2)) ∧
    (List.zip (clusterArray kind) (elementArray kind)).Nodup ∧
    (∀ (clusterId elementId : Nat) (p : Privilege),
      Lookup kind clusterId elementId = some p ↔
        (clusterId, elementId, p) ∈
          List.zip (clusterArray kind) (List.zip (elementArray kind) (privilegeArray kind))) := by
  have hlen1 : (clusterArray kind).length = (elementArray kind).length := by
    cases kind <;> rfl
  have hlen2 : (elementArray kind).length = (privilegeArray kind).length := by
    cases kind <;> rfl
  have hsorted : (List.zip (clusterArray kind) (elementArray kind)).Pairwise
      (fun a b => a.1 < b.1 ∨ (a.1 = b.1 ∧ a.2 < b.2)) := by
    cases kind <;> decide
  have hnodup : (List.zip (clusterArray kind) (elementArray kind)).Nodup := by
    refine hsorted.imp ?_
    intro a b hlt heq
    subst heq
    omega
  exact ⟨hlen1, hlen2, rfl, rfl, rfl, rfl, hsorted, hnodup,
    fun c e p => lookupRows_eq_some_iff c e p _ _ _ hlen1 hlen2 hnodup⟩

end AccessPrivilege

/-! # Read-request message (`ReadRequestMessage.h`) -/

namespace ReadRequestMessage

/-- C16: the read-request tags are 0 = attribute-path list, 1 = attribute-data-version
list, 2 = event-path list, 3 = event-number, and they are pairwise distinct. -/
theorem schema_tags :
    kCsTag_AttributePathList = 0 ∧ kCsTag_AttributeDataVersionList = 1 ∧
    kCsTag_EventPaths = 2 ∧ kCsTag_EventNumber = 3 ∧ schemaTags.Nodup := by
  decide

/-- Appending elements through the sub-builder extends the nested list and touches
nothing else. -/
theorem foldl_addItem (items : List Item) :
    ∀ (b : Builder) (tag : Nat) (acc : List Item), b.nested = some (tag, acc) →
      b.mError = .CHIP_NO_ERROR →
      items.foldl Builder.addItem b = { b with nested := some (tag, acc ++ items) } := by
  induction items with
  | nil =>
    intro b tag acc h _
    simp only [List.foldl_nil, List.append_nil, ← h]
  | cons x xs ih =>
    intro b tag acc h he
    have hstep : Builder.addItem b x = { b with nested := some (tag, acc ++ [x]) } := by
      simp only [Builder.addItem, h, he, if_true]
    rw [List.foldl_cons, hstep,
      ih { b with nested := some (tag, acc ++ [x]) } tag (acc ++ [x]) rfl he]
    simp only [List.append_assoc, List.singleton_append]

/-- Writing one list field on a builder in order appends exactly that field. -/
theorem writeList_createList (b : Builder) (create : Builder → Builder) (tag : Nat)
    (items : List Item) (hcreate : ∀ x, create x = x.createList tag)
    (he : b.mError = .CHIP_NO_ERROR) (hn : b.nested = none) (hd : b.ended = false) :
    b.writeList create items
      = { b with written := b.written ++ [(tag, .array items)] } := by
  have hc : b.createList tag = { b with nested := some (tag, []) } := by
    simp only [Builder.createList, he, hn, hd, and_self, if_true]
  simp only [Builder.writeList, hcreate, hc]
  rw [foldl_addItem items { b with nested := some (tag, []) } tag [] rfl he]
  simp only [Builder.endOfList, he, if_true, List.nil_append, hn]

/-- The fields a read-request value is encoded as. -/
theorem encode_written (v : ReadRequest) :
    encode v =
      { written :=
          [(kCsTag_AttributePathList, TLVValue.array v.attributePathList)]
          ++ (match v.attributeDataVersionList with
              | some l => [(kCsTag_AttributeDataVersionList, TLVValue.array l)]
              | none => [])
          ++ (match v.eventPaths with
              | some l => [(kCsTag_EventPaths, TLVValue.array l)]
              | none => [])
          ++ (match v.eventNumber with
              | some n => [(kCsTag_EventNumber, TLVValue.unsignedInteger n)]
              | none => []),
        nested := none, mError := .CHIP_NO_ERROR, ended := true } := by
  obtain ⟨apl, dvl, ep, en⟩ := v
  cases dvl <;> cases ep <;> cases en <;>
    simp [encode, Builder.init, Builder.EventNumber, Builder.EndOfReadRequestMessage,
      writeList_createList _ Builder.CreateAttributePathListBuilder
        kCsTag_AttributePathList _ (fun _ => rfl),
      writeList_createList _ Builder.CreateAttributeDataVersionListBuilder
        kCsTag_AttributeDataVersionList _ (fun _ => rfl),
      writeList_createList _ Builder.CreateEventPathsBuilder kCsTag_EventPaths _ (fun _ => rfl)]

/-- C17: read-request round trip.  Encoding a read-request value with the builder
leaves no error, no unfinished list and a finished message, and on the encoded
fields every getter returns the value that was written, or `CHIP_END_OF_TLV`
when the field was not written. -/
theorem read_request_round_trip (v : ReadRequest) :
    (encode v).mError = .CHIP_NO_ERROR ∧ (encode v).ended = true ∧ (encode v).nested = none ∧
    GetPathList (encode v).written = .ok v.attributePathList ∧
    GetAttributeDataVersionList (encode v).written
      = (match v.attributeDataVersionList with
         | some l => .ok l
         | none => .error .CHIP_END_OF_TLV) ∧
    GetEventPaths (encode v).written
      = (match v.eventPaths with
         | some l => .ok l
         | none => .error .CHIP_END_OF_TLV) ∧
    GetEventNumber (encode v).written
      = (match v.eventNumber with
         | some n => .ok n
         | none => .error .CHIP_END_OF_TLV) := by
  rw [encode_written]
  obtain ⟨apl, dvl, ep, en⟩ := v
  cases dvl <;> cases ep <;> cases en <;>
    simp [GetPathList, GetAttributeDataVersionList, GetEventPaths, GetEventNumber, getList,
      findElementWithTag, kCsTag_AttributePathList, kCsTag_AttributeDataVersionList,
      kCsTag_EventPaths, kCsTag_EventNumber]

/-- The pass of `CheckSchemaValidity` succeeds exactly when no tag repeats (nor
was seen before), every field of a schema tag has its data type, and the
mandatory tag is seen by the end. -/
theorem checkFields_eq_ok (fields : Fields) :
    ∀ seen : List Nat,
      checkFields fields seen = .CHIP_NO_ERROR ↔
        (kCsTag_AttributePathList ∈ seen ∨ kCsTag_AttributePathList ∈ fields.map Prod.fst) ∧
        (fields.map Prod.fst).Nodup ∧
        (∀ t, t ∈ fields.map Prod.fst → t ∉ seen) ∧
        (∀ f, f ∈ fields → hasExpectedType f.1 f.2 = true) := by
  induction fields with
  | nil =>
    intro seen
    simp [checkFields]
  | cons f rest ih =>
    intro seen
    obtain ⟨tag, v⟩ := f
    by_cases hseen : tag ∈ seen
    · have hfail : checkFields ((tag, v) :: rest) seen = .CHIP_ERROR_MALFORMED := by
        simp only [checkFields, hseen, if_true]
      rw [hfail]
      constructor
      · intro h; cases h
      · rintro ⟨_, _, h3, _⟩
        exact absurd hseen (h3 tag (by simp))
    · by_cases hty : hasExpectedType tag v = false
      · have hfail : checkFields ((tag, v) :: rest) seen = .CHIP_ERROR_MALFORMED := by
          simp only [checkFields, hseen, hty, if_true, if_false]
        rw [hfail]
        constructor
        · intro h; cases h
        · rintro ⟨_, _, _, h4⟩
          have := h4 (tag, v) (by simp)
          rw [hty] at this
          exact absurd this Bool.false_ne_true
      · have hty2 : hasExpectedType tag v = true := by simpa using hty
        have hstep : checkFields ((tag, v) :: rest) seen = checkFields rest (tag :: seen) := by
          simp only [checkFields, hseen, hty2, if_false, Bool.true_eq_false]
        rw [hstep, ih (tag :: seen)]
        simp only [List.map_cons, List.mem_cons, List.nodup_cons, forall_eq_or_imp, not_or]
        constructor
        · rintro ⟨h1, h2, h3, h4⟩
          refine ⟨?_, ⟨fun hmem => (h3 tag hmem).1 rfl, h2⟩, ⟨hseen, fun t ht => (h3 t ht).2⟩,
            hty2, h4⟩
          rcases h1 with (h | h) | h
          · exact Or.inr (Or.inl h)
          · exact Or.inl h
          · exact Or.inr (Or.inr h)
        · rintro ⟨h1, ⟨h2a, h2b⟩, ⟨_, h3⟩, _, h4⟩
          refine ⟨?_, h2b, fun t ht => ⟨fun heq => h2a (heq ▸ ht), h3 t ht⟩, h4⟩
          rcases h1 with h | h | h
          · exact Or.inl (Or.inr h)
          · exact Or.inl (Or.inl h)
          · exact Or.inr h

/-- C18 (as amended): `CheckSchemaValidity` fails if the mandatory attribute-path
list tag is missing, if any tag appears more than once at the top level, or if a
field of a schema tag does not have the schema's data type; it succeeds for an
encoding whose schema-tagged fields have their data types and that contains the
mandatory tag and no duplicate, whether or not it also contains fields with
unknown tags. -/
theorem check_schema_validity (fields : Fields) :
    (kCsTag_AttributePathList ∉ fields.map Prod.fst →
      CheckSchemaValidity fields ≠ .CHIP_NO_ERROR) ∧
    (¬ (fields.map Prod.fst).Nodup → CheckSchemaValidity fields ≠ .CHIP_NO_ERROR) ∧
    ((∃ f, f ∈ fields ∧ hasExpectedType f.1 f.2 = false) →
      CheckSchemaValidity fields ≠ .CHIP_NO_ERROR) ∧
    ((∀ f, f ∈ fields → hasExpectedType f.1 f.2 = true) →
      (fields.map Prod.fst).count kCsTag_AttributePathList = 1 →
      (fields.map Prod.fst).Nodup →
      CheckSchemaValidity fields = .CHIP_NO_ERROR) ∧
    (∀ (tag : Nat) (v : TLVValue), tag ∉ schemaTags → hasExpectedType tag v = true) := by
  have hiff := checkFields_eq_ok fields []
  simp only [List.not_mem_nil, false_or, not_false_eq_true, implies_true, true_and] at hiff
  refine ⟨?_, ?_, ?_, ?_, ?_⟩
  · intro h hok
    exact h ((hiff.mp hok).1)
  · intro h hok
    exact h ((hiff.mp hok).2.1)
  · rintro ⟨f, hf, hty⟩ hok
    have := (hiff.mp hok).2.2 f hf
    rw [hty] at this
    exact Bool.false_ne_true this
  · intro hty hcount hnodup
    refine hiff.mpr ⟨?_, hnodup, hty⟩
    exact List.count_pos_iff.mp (by omega)
  · intro tag v h
    simp only [schemaTags, List.mem_cons, List.mem_singleton, List.not_mem_nil, or_false,
      not_or] at h
    simp [hasExpectedType, h.1, h.2.1, h.2.2.1, h.2.2.2]

/-- Witness for `check_schema_validity`: an encoding with the attribute-path list,
an event number and a field with the unknown tag 9 passes. -/
theorem check_schema_validity_witness :
    CheckSchemaValidity
      [(0, .array [[1, 2]]), (9, .unsignedInteger 5), (3, .unsignedInteger 7)]
      = .CHIP_NO_ERROR :=
  (check_schema_validity
    [(0, .array [[1, 2]]), (9, .unsignedInteger 5), (3, .unsignedInteger 7)]).2.2.2.1
    (by decide) (by decide) (by decide)

/-- C18 (counterexample to the claim as stated): an encoding that contains the
mandatory tag exactly once and no duplicate tag, and still fails
`CheckSchemaValidity`, because its event-number field is a list. -/
theorem check_schema_validity_needs_types :
    (List.map Prod.fst [((0 : Nat), TLVValue.array []), (3, TLVValue.array [])]).count
        kCsTag_AttributePathList = 1 ∧
    (List.map Prod.fst [((0 : Nat), TLVValue.array []), (3, TLVValue.array [])]).Nodup ∧
    CheckSchemaValidity [(0, .array []), (3, .array [])] ≠ .CHIP_NO_ERROR := by
  decide

end ReadRequestMessage

/-! # OTA requestor delegate (`ExampleRequestorDelegate.cpp`) -/

namespace OtaRequestor

/-- An accepted announcement (valid command object, resolvable fabric) stores the
provider and schedules the start-delay timer with the delay the reason selects. -/
theorem handleAnnounce_accepted (reasons : AnnouncementReasons) (self : Nat)
    (d : ExampleRequestorDelegate) (sys : SystemLayer) (ec : ExchangeContext)
    (table : FabricTable) (fabric : FabricInfo) (providerLocation vendorId reason : Nat)
    (metadata : List Nat) (htable : d.mConnectParams.fabricsTable = some table)
    (hfabric : FindFabricWithIndex table ec.fabricIndex = some fabric) :
    d.HandleAnnounceOTAProvider reasons self sys (some ⟨some ec⟩) providerLocation vendorId
        reason metadata
      = (.EMBER_ZCL_STATUS_SUCCESS,
         { d with mProviderId := some providerLocation,
                  mProviderFabricIndex := some ec.fabricIndex },
         StartTimer sys (msToStart reasons d reason) self) := by
  simp [ExampleRequestorDelegate.HandleAnnounceOTAProvider,
    ExampleRequestorDelegate.GetProviderFabricInfo, htable, hfabric, msToStart]

/-- After `StartTimer` exactly one callback is pending for the owner, with the
delay just scheduled. -/
theorem firesFor_StartTimer (sys : SystemLayer) (delayMs appState : Nat) :
    firesFor (StartTimer sys delayMs appState) appState = [delayMs] := by
  simp [firesFor, StartTimer, List.filter_append, List.filter_filter]

/-- C19: when `HandleAnnounceOTAProvider` has scheduled the start-delay timer for
a delegate and schedules it again for the same delegate before the timer fires
(both announcements are accepted: valid command object, resolvable fabric),
exactly one `StartDelayTimerHandler` callback is pending for the delegate after
either call, and after the second it carries the delay chosen by the second
call. -/
theorem announce_twice_one_callback (reasons : AnnouncementReasons) (self : Nat)
    (d : ExampleRequestorDelegate) (sys : SystemLayer) (ec1 ec2 : ExchangeContext)
    (table : FabricTable) (fabric1 fabric2 : FabricInfo)
    (provider1 vendor1 reason1 provider2 vendor2 reason2 : Nat) (metadata1 metadata2 : List Nat)
    (htable : d.mConnectParams.fabricsTable = some table)
    (hfabric1 : FindFabricWithIndex table ec1.fabricIndex = some fabric1)
    (hfabric2 : FindFabricWithIndex table ec2.fabricIndex = some fabric2) :
    firesFor
      (d.HandleAnnounceOTAProvider reasons self sys (some ⟨some ec1⟩) provider1 vendor1 reason1
        metadata1).2.2 self = [msToStart reasons d reason1] ∧
    firesFor
      ((d.HandleAnnounceOTAProvider reasons self sys (some ⟨some ec1⟩) provider1 vendor1 reason1
          metadata1).2.1.HandleAnnounceOTAProvider reasons self
        (d.HandleAnnounceOTAProvider reasons self sys (some ⟨some ec1⟩) provider1 vendor1 reason1
          metadata1).2.2
        (some ⟨some ec2⟩) provider2 vendor2 reason2 metadata2).2.2 self
      = [msToStart reasons d reason2] := by
  rw [handleAnnounce_accepted reasons self d sys ec1 table fabric1 provider1 vendor1 reason1
    metadata1 htable hfabric1]
  simp only []
  rw [handleAnnounce_accepted reasons self
    { d with mProviderId := some provider1, mProviderFabricIndex := some ec1.fabricIndex }
    (StartTimer sys (msToStart reasons d reason1) self) ec2 table fabric2 provider2 vendor2
    reason2 metadata2 htable hfabric2]
  exact ⟨firesFor_StartTimer _ _ _, firesFor_StartTimer _ _ _⟩

/-- The delay the `switch` selects: the configured delay for the two plain
announcement reasons, the immediate delay for the urgent one (when its value
differs from theirs), and 0 for every other value. -/
theorem msToStart_cases (reasons : AnnouncementReasons) (d : ExampleRequestorDelegate)
    (reason : Nat) :
    ((reason = reasons.SIMPLE_ANNOUNCEMENT ∨ reason = reasons.UPDATE_AVAILABLE) →
      msToStart reasons d reason = d.mOtaStartDelayMs) ∧
    (reason = reasons.URGENT_UPDATE_AVAILABLE → reason ≠ reasons.SIMPLE_ANNOUNCEMENT →
      reason ≠ reasons.UPDATE_AVAILABLE → msToStart reasons d reason = kImmediateStartDelayMs) ∧
    (reason ≠ reasons.SIMPLE_ANNOUNCEMENT → reason ≠ reasons.UPDATE_AVAILABLE →
      reason ≠ reasons.URGENT_UPDATE_AVAILABLE → msToStart reasons d reason = 0) := by
  refine ⟨?_, ?_, ?_⟩
  · intro h
    simp only [msToStart, h, if_true]
  · intro h1 h2 h3
    unfold msToStart
    rw [if_neg (by rintro (h | h) <;> contradiction), if_pos h1]
  · intro h1 h2 h3
    simp only [msToStart, h1, h2, h3, or_self, if_false]

/-- Whatever values the three enumerators have, some `uint8_t` reason is none of
them, and for it the delay is 0 even when a start delay is configured. -/
theorem msToStart_unlisted_exists (reasons : AnnouncementReasons)
    (d : ExampleRequestorDelegate) :
    ∃ reason : Nat, reason < 256 ∧ reason ≠ reasons.SIMPLE_ANNOUNCEMENT ∧
      reason ≠ reasons.UPDATE_AVAILABLE ∧ reason ≠ reasons.URGENT_UPDATE_AVAILABLE ∧
      msToStart reasons d reason = 0 := by
  have key : ∃ reason : Nat, reason < 256 ∧ reason ≠ reasons.SIMPLE_ANNOUNCEMENT ∧
      reason ≠ reasons.UPDATE_AVAILABLE ∧ reason ≠ reasons.URGENT_UPDATE_AVAILABLE := by
    by_cases h0 : (0 : Nat) ≠ reasons.SIMPLE_ANNOUNCEMENT ∧ (0 : Nat) ≠ reasons.UPDATE_AVAILABLE
        ∧ (0 : Nat) ≠ reasons.URGENT_UPDATE_AVAILABLE
    · exact ⟨0, by omega, h0⟩
    by_cases h1 : (1 : Nat) ≠ reasons.SIMPLE_ANNOUNCEMENT ∧ (1 : Nat) ≠ reasons.UPDATE_AVAILABLE
        ∧ (1 : Nat) ≠ reasons.URGENT_UPDATE_AVAILABLE
    · exact ⟨1, by omega, h1⟩
    by_cases h2 : (2 : Nat) ≠ reasons.SIMPLE_ANNOUNCEMENT ∧ (2 : Nat) ≠ reasons.UPDATE_AVAILABLE
        ∧ (2 : Nat) ≠ reasons.URGENT_UPDATE_AVAILABLE
    · exact ⟨2, by omega, h2⟩
    exact ⟨3, by omega, by omega, by omega, by omega⟩
  obtain ⟨reason, hlt, h1, h2, h3⟩ := key
  exact ⟨reason, hlt, h1, h2, h3, (msToStart_cases reasons d reason).2.2 h1 h2 h3⟩

/-- C20 (evaluation at the failing input): a delegate configured by `Init` with a
start delay of 5000 ms accepts an announcement whose reason is 3, a value of
`uint8_t` that is none of the three enumerators 0, 1, 2, and schedules the timer
with delay 0, not 5000; the reasons 0 and 1 give 5000 and the urgent reason 2
gives `kImmediateStartDelayMs`. -/
theorem announce_unlisted_reason :
    (ExampleRequestorDelegate.HandleAnnounceOTAProvider ⟨0, 1, 2⟩ 7
        (ExampleRequestorDelegate.new.Init ⟨some [⟨1, 100⟩]⟩ 5000) []
        (some ⟨some ⟨1⟩⟩) 42 0xFFF1 3 [])
      = (.EMBER_ZCL_STATUS_SUCCESS,
         { mOtaStartDelayMs := 5000, mProviderId := some 42, mProviderFabricIndex := some 1,
           mConnectParams := ⟨some [⟨1, 100⟩]⟩ },
         [{ delayMs := 0, appState := 7 }]) ∧
    (ExampleRequestorDelegate.HandleAnnounceOTAProvider ⟨0, 1, 2⟩ 7
        (ExampleRequestorDelegate.new.Init ⟨some [⟨1, 100⟩]⟩ 5000) []
        (some ⟨some ⟨1⟩⟩) 42 0xFFF1 0 []).2.2 = [{ delayMs := 5000, appState := 7 }] ∧
    (ExampleRequestorDelegate.HandleAnnounceOTAProvider ⟨0, 1, 2⟩ 7
        (ExampleRequestorDelegate.new.Init ⟨some [⟨1, 100⟩]⟩ 5000) []
        (some ⟨some ⟨1⟩⟩) 42 0xFFF1 1 []).2.2 = [{ delayMs := 5000, appState := 7 }] ∧
    (ExampleRequestorDelegate.HandleAnnounceOTAProvider ⟨0, 1, 2⟩ 7
        (ExampleRequestorDelegate.new.Init ⟨some [⟨1, 100⟩]⟩ 5000) []
        (some ⟨some ⟨1⟩⟩) 42 0xFFF1 2 []).2.2
      = [{ delayMs := kImmediateStartDelayMs, appState := 7 }] := by
  decide

/-- Witness for `announce_twice_one_callback`: a plain announcement followed by an
urgent one, for a delegate configured with a start delay of 5000 ms. -/
theorem announce_twice_one_callback_witness :
    (ExampleRequestorDelegate.new.Init ⟨some [⟨1, 100⟩]⟩ 5000).mConnectParams.fabricsTable
      = some [⟨1, 100⟩] ∧
    FindFabricWithIndex [⟨1, 100⟩] (ExchangeContext.mk 1).fabricIndex = some ⟨1, 100⟩ ∧
    firesFor
      (((ExampleRequestorDelegate.new.Init ⟨some [⟨1, 100⟩]⟩ 5000).HandleAnnounceOTAProvider
          ⟨0, 1, 2⟩ 7 [] (some ⟨some ⟨1⟩⟩) 42 0xFFF1 0 []).2.1.HandleAnnounceOTAProvider
        ⟨0, 1, 2⟩ 7
        ((ExampleRequestorDelegate.new.Init ⟨some [⟨1, 100⟩]⟩ 5000).HandleAnnounceOTAProvider
          ⟨0, 1, 2⟩ 7 [] (some ⟨some ⟨1⟩⟩) 42 0xFFF1 0 []).2.2
        (some ⟨some ⟨1⟩⟩) 43 0xFFF1 2 []).2.2 7
      = [msToStart ⟨0, 1, 2⟩ (ExampleRequestorDelegate.new.Init ⟨some [⟨1, 100⟩]⟩ 5000) 2] :=
  ⟨rfl, by decide,
   (announce_twice_one_callback ⟨0, 1, 2⟩ 7
      (ExampleRequestorDelegate.new.Init ⟨some [⟨1, 100⟩]⟩ 5000) [] ⟨1⟩ ⟨1⟩ [⟨1, 100⟩]
      ⟨1, 100⟩ ⟨1, 100⟩ 42 0xFFF1 0 43 0xFFF1 2 [] [] rfl (by decide) (by decide)).2⟩

/-- C21: when the provider's fabric cannot be resolved, because the fabric table
is null or holds no fabric with the session's fabric index,
`HandleAnnounceOTAProvider` with a valid command object returns the success
status and leaves the pending timers as they were, for every announcement
reason; the provider id and fabric index are stored all the same. -/
theorem handleAnnounce_fabric_unresolved (reasons : AnnouncementReasons) (self : Nat)
    (d : ExampleRequestorDelegate) (sys : SystemLayer) (ec : ExchangeContext)
    (providerLocation vendorId reason : Nat) (metadata : List Nat)
    (h : d.mConnectParams.fabricsTable = none ∨
      ∃ table, d.mConnectParams.fabricsTable = some table ∧
        FindFabricWithIndex table ec.fabricIndex = none) :
    d.HandleAnnounceOTAProvider reasons self sys (some ⟨some ec⟩) providerLocation vendorId
        reason metadata
      = (.EMBER_ZCL_STATUS_SUCCESS,
         { d with mProviderId := some providerLocation,
                  mProviderFabricIndex := some ec.fabricIndex },
         sys) := by
  rcases h with h | ⟨table, h, hfind⟩
  · simp [ExampleRequestorDelegate.HandleAnnounceOTAProvider,
      ExampleRequestorDelegate.GetProviderFabricInfo, h]
  · simp [ExampleRequestorDelegate.HandleAnnounceOTAProvider,
      ExampleRequestorDelegate.GetProviderFabricInfo, h, hfind]

/-- Witness for `handleAnnounce_fabric_unresolved`: a fabric table without the
session's fabric index 2, an urgent announcement, one timer already pending. -/
theorem handleAnnounce_fabric_unresolved_witness :
    ((ExampleRequestorDelegate.new.Init ⟨some [⟨1, 100⟩]⟩ 5000).mConnectParams.fabricsTable = none ∨
      ∃ table, (ExampleRequestorDelegate.new.Init ⟨some [⟨1, 100⟩]⟩ 5000).mConnectParams.fabricsTable
          = some table ∧ FindFabricWithIndex table (ExchangeContext.mk 2).fabricIndex = none) ∧
    (ExampleRequestorDelegate.new.Init ⟨some [⟨1, 100⟩]⟩ 5000).HandleAnnounceOTAProvider
        ⟨0, 1, 2⟩ 7 [⟨9, 7⟩] (some ⟨some ⟨2⟩⟩) 42 0xFFF1 2 []
      = (.EMBER_ZCL_STATUS_SUCCESS,
         { (ExampleRequestorDelegate.new.Init ⟨some [⟨1, 100⟩]⟩ 5000) with
             mProviderId := some 42, mProviderFabricIndex := some (ExchangeContext.mk 2).fabricIndex },
         [⟨9, 7⟩]) :=
  ⟨Or.inr ⟨[⟨1, 100⟩], rfl, by decide⟩,
   handleAnnounce_fabric_unresolved ⟨0, 1, 2⟩ 7
     (ExampleRequestorDelegate.new.Init ⟨some [⟨1, 100⟩]⟩ 5000) [⟨9, 7⟩] ⟨2⟩ 42 0xFFF1 2 []
     (Or.inr ⟨[⟨1, 100⟩], rfl, by decide⟩)⟩

/-- A call of `HandleAnnounceOTAProvider` leaves a stored provider fabric index
stored. -/
theorem handleAnnounce_keeps_fabricIndex (reasons : AnnouncementReasons) (self : Nat)
    (d : ExampleRequestorDelegate) (sys : SystemLayer) (commandObj : Option CommandHandler)
    (providerLocation vendorId reason : Nat) (metadata : List Nat)
    (h : d.mProviderFabricIndex.isSome = true) :
    (d.HandleAnnounceOTAProvider reasons self sys commandObj providerLocation vendorId reason
      metadata).2.1.mProviderFabricIndex.isSome = true := by
  unfold ExampleRequestorDelegate.HandleAnnounceOTAProvider
  cases hc : commandObj.bind CommandHandler.exchangeContext with
  | none => simpa using h
  | some ec =>
    simp only []
    split <;> rfl

/-- C25: in every state of a delegate reachable from its constructor by calls of
`Init`, `HandleAnnounceOTAProvider` and `ConnectToProvider`, `mProviderFabricIndex`
holds a value (0 after construction); so `ConnectToProvider` never ends in its
"Missing Provider FabricIndex" branch and `GetProviderFabricInfo` never takes its
"No FabricIndex value stored" branch. -/
theorem reachable_fabricIndex_stored (reasons : AnnouncementReasons)
    (d : ExampleRequestorDelegate) (h : Reachable reasons d) :
    d.mProviderFabricIndex.isSome = true ∧
    d.ConnectToProvider.1 ≠ .missingProviderFabricIndex ∧
    d.GetProviderFabricInfoBranch ≠ .noFabricIndexStored ∧
    ExampleRequestorDelegate.new.mProviderFabricIndex = some 0 := by
  have hinv : d.mProviderFabricIndex.isSome = true := by
    induction h with
    | constructed => rfl
    | init d cp ms _ ih => exact ih
    | handleAnnounce d self sys cmd pl v r m _ ih =>
      exact handleAnnounce_keeps_fabricIndex reasons self d sys cmd pl v r m ih
    | connect d _ ih =>
      have hsame : d.ConnectToProvider.2 = d := by
        unfold ExampleRequestorDelegate.ConnectToProvider
        split
        · rfl
        · split
          · rfl
          · split <;> rfl
      rw [hsame]; exact ih
  obtain ⟨index, hidx⟩ := Option.isSome_iff_exists.mp hinv
  refine ⟨hinv, ?_, ?_, rfl⟩
  · unfold ExampleRequestorDelegate.ConnectToProvider
    rw [hidx]
    split
    · simp
    · simp only []
      split <;> simp
  · unfold ExampleRequestorDelegate.GetProviderFabricInfoBranch
    rw [hidx]
    split <;> simp

/-- Witness for `reachable_fabricIndex_stored`: the state after construction,
`Init`, one accepted announcement and `ConnectToProvider`. -/
theorem reachable_fabricIndex_stored_witness :
    Reachable ⟨0, 1, 2⟩
      (((ExampleRequestorDelegate.new.Init ⟨some [⟨1, 100⟩]⟩ 5000).HandleAnnounceOTAProvider
          ⟨0, 1, 2⟩ 7 [] (some ⟨some ⟨1⟩⟩) 42 0xFFF1 0 []).2.1.ConnectToProvider.2) ∧
    (((ExampleRequestorDelegate.new.Init ⟨some [⟨1, 100⟩]⟩ 5000).HandleAnnounceOTAProvider
          ⟨0, 1, 2⟩ 7 [] (some ⟨some ⟨1⟩⟩) 42 0xFFF1 0 []).2.1.ConnectToProvider.2).mProviderFabricIndex.isSome
      = true :=
  ⟨.connect _ (.handleAnnounce _ 7 [] (some ⟨some ⟨1⟩⟩) 42 0xFFF1 0 [] (.init _ _ _ .constructed)),
   (reachable_fabricIndex_stored ⟨0, 1, 2⟩ _
      (.connect _ (.handleAnnounce _ 7 [] (some ⟨some ⟨1⟩⟩) 42 0xFFF1 0 []
        (.init _ ⟨some [⟨1, 100⟩]⟩ 5000 .constructed)))).1⟩

/-- C26: `HandleAnnounceOTAProvider` returns the invalid-argument status exactly
when the command object is null or its exchange context is null; in that case the
delegate and the pending timers are left as they were; in every other case it
returns the success status. -/
theorem handleAnnounce_status (reasons : AnnouncementReasons) (self : Nat)
    (d : ExampleRequestorDelegate) (sys : SystemLayer) (commandObj : Option CommandHandler)
    (providerLocation vendorId reason : Nat) (metadata : List Nat) :
    ((d.HandleAnnounceOTAProvider reasons self sys commandObj providerLocation vendorId reason
        metadata).1 = .EMBER_ZCL_STATUS_INVALID_ARGUMENT ↔
      (commandObj = none ∨ ∃ c, commandObj = some c ∧ c.exchangeContext = none)) ∧
    ((commandObj = none ∨ ∃ c, commandObj = some c ∧ c.exchangeContext = none) →
      d.HandleAnnounceOTAProvider reasons self sys commandObj providerLocation vendorId reason
        metadata = (.EMBER_ZCL_STATUS_INVALID_ARGUMENT, d, sys)) ∧
    (¬ (commandObj = none ∨ ∃ c, commandObj = some c ∧ c.exchangeContext = none) →
      (d.HandleAnnounceOTAProvider reasons self sys commandObj providerLocation vendorId reason
        metadata).1 = .EMBER_ZCL_STATUS_SUCCESS) := by
  have hnull : (commandObj = none ∨ ∃ c, commandObj = some c ∧ c.exchangeContext = none) ↔
      commandObj.bind CommandHandler.exchangeContext = none := by
    cases commandObj with
    | none => simp
    | some c => simp
  have hinv : commandObj.bind CommandHandler.exchangeContext = none →
      d.HandleAnnounceOTAProvider reasons self sys commandObj providerLocation vendorId reason
        metadata = (.EMBER_ZCL_STATUS_INVALID_ARGUMENT, d, sys) := by
    intro h
    simp only [ExampleRequestorDelegate.HandleAnnounceOTAProvider, h]
  have hok : ¬ commandObj.bind CommandHandler.exchangeContext = none →
      (d.HandleAnnounceOTAProvider reasons self sys commandObj providerLocation vendorId reason
        metadata).1 = .EMBER_ZCL_STATUS_SUCCESS := by
    intro h
    obtain ⟨ec, hec⟩ := Option.ne_none_iff_exists'.mp h
    simp only [ExampleRequestorDelegate.HandleAnnounceOTAProvider, hec]
    split <;> rfl
  refine ⟨⟨?_, ?_⟩, ?_, ?_⟩
  · intro hstatus
    by_contra hnot
    have := hok (fun h => hnot (hnull.mpr h))
    rw [hstatus] at this
    cases this
  · intro h
    rw [hinv (hnull.mp h)]
  · intro h
    exact hinv (hnull.mp h)
  · intro h
    exact hok (fun hb => h (hnull.mpr hb))

end OtaRequestor
